import Mathlib

/-!
Shallow embedding of the Melodia core: the `PathManager` path store and the
`MelodiaApp` interaction/playback coordinator, together with theorems checking
the natural-language specification against this code.

Numbers produced by input events (coordinates, clock readings) are modelled as
rationals; geometric lengths (`Math.sqrt`) live in `ℝ` via `Real.sqrt`.
JavaScript division, which can produce `NaN`/`Infinity` on a zero denominator,
is modelled by the explicit `JsNum` type.
-/

set_option maxHeartbeats 1000000

/-- Input/path point (`Point` / `PathPoint` in utils/types): x, y, a monotonic
millisecond timestamp, and an optional pressure. -/
structure Point where
  x : ℚ
  y : ℚ
  timestamp : ℚ
  pressure : Option ℚ := none
deriving DecidableEq

/-- Axis-aligned rectangle (`Rectangle` in utils/types). -/
structure Rectangle where
  x : ℚ
  y : ℚ
  width : ℚ
  height : ℚ
deriving DecidableEq

/-- Visual style (`PathStyle` in utils/types); irrelevant to core logic but
carried by the entity. -/
structure PathStyle where
  strokeWidth : ℚ
  strokeColor : String
  glowIntensity : ℚ
deriving DecidableEq

/-- Result of a JavaScript floating-point division: finite, `Infinity`,
`-Infinity` or `NaN`. -/
inductive JsNum where
  | nan : JsNum
  | posInf : JsNum
  | negInf : JsNum
  | fin : ℝ → JsNum

/-- Opaque audio payload handle (`ArrayBuffer`). -/
abbrev ArrayBuffer := ℕ

/-- Metadata attached with a recording (`AudioData.metadata`). -/
structure AudioMetadata where
  recordedAt : ℚ
  originalSpeed : JsNum

/-- Attached recording (`AudioData` in utils/types). -/
structure AudioData where
  buffer : ArrayBuffer
  format : String
  sampleRate : ℚ
  duration : ℚ
  metadata : AudioMetadata

/-- A drawn path (`AudioPath` in utils/types). -/
structure AudioPath where
  id : String
  points : List Point
  audioData : Option AudioData := none
  style : PathStyle
  boundingBox : Rectangle
  createdAt : ℚ

/-- State of the `PathManager` store: the insertion-ordered `paths` map, the
`activePaths` set and the id counter. -/
structure PathManager where
  paths : List (String × AudioPath)
  activePaths : List String
  pathCounter : ℕ

/-- The empty store (`new PathManager()`). -/
def PathManager.empty : PathManager := ⟨[], [], 0⟩

/-- Lookup in the insertion-ordered map (`Map.get`). -/
def lookupPath (entries : List (String × AudioPath)) (pathId : String) :
    Option AudioPath :=
  match entries.find? (fun e => e.1 == pathId) with
  | some e => some e.2
  | none => none

/-- `Map.set`: replace in place when the key exists, else append (JS `Map`
keeps the original insertion position on overwrite). -/
def setPath (entries : List (String × AudioPath)) (pathId : String)
    (path : AudioPath) : List (String × AudioPath) :=
  if entries.any (fun e => e.1 == pathId) then
    entries.map (fun e => if e.1 == pathId then (pathId, path) else e)
  else entries ++ [(pathId, path)]

/-- In-place mutation of the path object stored under a key (the JS code holds
a live reference into the map and mutates it). -/
def updatePathEntry (entries : List (String × AudioPath)) (pathId : String)
    (f : AudioPath → AudioPath) : List (String × AudioPath) :=
  entries.map (fun e => if e.1 == pathId then (e.1, f e.2) else e)

/-- `Set.add`. -/
def addToStringSet (l : List String) (s : String) : List String :=
  if l.contains s then l else l ++ [s]

/-- `Set.delete`. -/
def removeFromStringSet (l : List String) (s : String) : List String :=
  l.filter (fun x => !(x == s))

/-- The id string minted for the n-th path: `path-${n}`. -/
def pathIdOf (n : ℕ) : String := "path-" ++ toString n

/-- Default style (`PathManager.getDefaultStyle`). -/
def getDefaultStyle : PathStyle :=
  { strokeWidth := 3, strokeColor := "#ffffff", glowIntensity := 0.5 }

/-- Degenerate box at a point (`PathManager.createBoundingBox`). -/
def createBoundingBox (point : Point) : Rectangle :=
  { x := point.x, y := point.y, width := 0, height := 0 }

/-- Grow-to-include update (`PathManager.updateBoundingBox`), x then y. -/
def updateBoundingBox (box : Rectangle) (point : Point) : Rectangle :=
  let box1 :=
    if point.x < box.x then
      { box with width := box.width + (box.x - point.x), x := point.x }
    else if point.x > box.x + box.width then
      { box with width := point.x - box.x }
    else box
  if point.y < box1.y then
    { box1 with height := box1.height + (box1.y - point.y), y := point.y }
  else if point.y > box1.y + box1.height then
    { box1 with height := point.y - box1.y }
  else box1

/-- `PathManager.startRecording`: mint `path-${++counter}`, seed the path with
the input point restamped at `now` (`performance.now()`), mark it active.
`wall` is `Date.now()` for `createdAt`. Returns the new id and store. -/
def PathManager.startRecording (m : PathManager) (now wall : ℚ)
    (point : Point) : String × PathManager :=
  let pathId := pathIdOf (m.pathCounter + 1)
  let pathPoint : Point := { point with timestamp := now }
  let newPath : AudioPath :=
    { id := pathId, points := [pathPoint], style := getDefaultStyle,
      boundingBox := createBoundingBox pathPoint, createdAt := wall }
  (pathId,
   { paths := setPath m.paths pathId newPath,
     activePaths := addToStringSet m.activePaths pathId,
     pathCounter := m.pathCounter + 1 })

/-- `PathManager.addPoint`: no-op on unknown id; otherwise append the point
restamped at `now` and grow the bounding box. -/
def PathManager.addPoint (m : PathManager) (now : ℚ) (pathId : String)
    (point : Point) : PathManager :=
  match lookupPath m.paths pathId with
  | none => m
  | some _ =>
    let pathPoint : Point := { point with timestamp := now }
    { m with paths := updatePathEntry m.paths pathId (fun p =>
        { p with points := p.points ++ [pathPoint],
                 boundingBox := updateBoundingBox p.boundingBox pathPoint }) }

/-- `PathManager.endRecording`: drop the id from the active set. -/
def PathManager.endRecording (m : PathManager) (pathId : String) : PathManager :=
  { m with activePaths := removeFromStringSet m.activePaths pathId }

/-- `PathManager.getPath`. -/
def PathManager.getPath (m : PathManager) (pathId : String) : Option AudioPath :=
  lookupPath m.paths pathId

/-- `PathManager.deletePath`. -/
def PathManager.deletePath (m : PathManager) (pathId : String) : PathManager :=
  { m with paths := m.paths.filter (fun e => !(e.1 == pathId)),
           activePaths := removeFromStringSet m.activePaths pathId }

/-- `PathManager.clearAllPaths`: clears both collections and resets the id
counter to 0. -/
def PathManager.clearAllPaths (_m : PathManager) : PathManager :=
  { paths := [], activePaths := [], pathCounter := 0 }

/-- Squared Euclidean distance between two points; the rational inside the
`Math.sqrt` of `PathManager.distanceToPoint`. -/
def dist2 (p q : Point) : ℚ :=
  (p.x - q.x) * (p.x - q.x) + (p.y - q.y) * (p.y - q.y)

/-- `PathManager.distanceToPoint`. -/
noncomputable def distanceToPoint (p q : Point) : ℝ := Real.sqrt (dist2 p q)

/-- Consecutive point pairs of a path: the segments its loops run over. -/
def segPairs (points : List Point) : List (Point × Point) :=
  points.zip points.tail

/-- `PathManager.calculatePathLength`: sum of Euclidean segment lengths. -/
noncomputable def calculatePathLength (points : List Point) : ℝ :=
  (segPairs points).foldl (fun acc pq => acc + distanceToPoint pq.1 pq.2) 0

/-- `PathManager.getRecordingDuration`: last minus first timestamp, 0 when the
path has fewer than 2 points. -/
def getRecordingDuration (points : List Point) : ℚ :=
  if points.length < 2 then 0
  else ((points.getLast?).getD ⟨0, 0, 0, none⟩).timestamp
       - ((points.head?).getD ⟨0, 0, 0, none⟩).timestamp

/-- JavaScript division: `x / 0` is `NaN` when `x = 0`, signed infinity
otherwise; finite quotient for a nonzero denominator. -/
noncomputable def jsDiv (a b : ℝ) : JsNum :=
  if b = 0 then
    (if a = 0 then JsNum.nan else if 0 < a then JsNum.posInf else JsNum.negInf)
  else JsNum.fin (a / b)

/-- The `AudioData` record built by `PathManager.attachAudioData` for a path:
`originalSpeed = pathLength / recordingDuration` is a raw, unguarded JS
division; `duration` is the recording duration converted to seconds. -/
noncomputable def attachedAudio (path : AudioPath) (audioData : ArrayBuffer) :
    AudioData :=
  let pathLength := calculatePathLength path.points
  let recordingDuration := getRecordingDuration path.points
  let originalSpeed := jsDiv pathLength (recordingDuration : ℝ)
  { buffer := audioData, format := "webm", sampleRate := 44100,
    duration := recordingDuration / 1000,
    metadata := { recordedAt := path.createdAt,
                  originalSpeed := originalSpeed } }

/-- `PathManager.attachAudioData`: no-op on unknown id; otherwise store the
audio payload together with the computed duration and original speed. -/
noncomputable def PathManager.attachAudioData (m : PathManager)
    (pathId : String) (audioData : ArrayBuffer) : PathManager :=
  match lookupPath m.paths pathId with
  | none => m
  | some path =>
    let newPaths := updatePathEntry m.paths pathId
      (fun p => { p with audioData := some (attachedAudio path audioData) })
    { m with paths := newPaths }

/-- Squared distance from a point to a segment: the rational inside the final
`Math.sqrt` of `PathManager.distanceToLineSegment`, mirroring its param
computation and clamping. -/
def segDistSq (point lineStart lineEnd : Point) : ℚ :=
  let A := point.x - lineStart.x
  let B := point.y - lineStart.y
  let C := lineEnd.x - lineStart.x
  let D := lineEnd.y - lineStart.y
  let dot := A * C + B * D
  let lenSq := C * C + D * D
  if lenSq = 0 then A * A + B * B
  else
    let param := dot / lenSq
    let xy :=
      if param < 0 then (lineStart.x, lineStart.y)
      else if param > 1 then (lineEnd.x, lineEnd.y)
      else (lineStart.x + param * C, lineStart.y + param * D)
    (point.x - xy.1) * (point.x - xy.1) + (point.y - xy.2) * (point.y - xy.2)

/-- `PathManager.distanceToLineSegment`. -/
noncomputable def distanceToLineSegment (point lineStart lineEnd : Point) : ℝ :=
  Real.sqrt (segDistSq point lineStart lineEnd)

/-- `PathManager.closestPointOnLineSegment`: clamped projection onto the
segment; a degenerate segment returns its start. The returned point is stamped
with `now` (`performance.now()`). -/
def closestPointOnLineSegment (now : ℚ) (point lineStart lineEnd : Point) :
    Point :=
  let A := point.x - lineStart.x
  let B := point.y - lineStart.y
  let C := lineEnd.x - lineStart.x
  let D := lineEnd.y - lineStart.y
  let dot := A * C + B * D
  let lenSq := C * C + D * D
  if lenSq = 0 then lineStart
  else
    let param0 := dot / lenSq
    let param := if param0 < 0 then 0 else if param0 > 1 then 1 else param0
    { x := lineStart.x + param * C, y := lineStart.y + param * D,
      timestamp := now, pressure := none }

/-- `PathManager.isPointNearPath`: bounding-box quick rejection, then segment
distances, then the single-point fallback. -/
noncomputable def isPointNearPath (point : Point) (path : AudioPath)
    (tolerance : ℚ) : Bool :=
  let box := path.boundingBox
  if point.x < box.x - tolerance ∨ point.x > box.x + box.width + tolerance ∨
     point.y < box.y - tolerance ∨ point.y > box.y + box.height + tolerance
  then false
  else if (segPairs path.points).any
      (fun pq => decide (distanceToLineSegment point pq.1 pq.2 ≤ (tolerance : ℝ)))
  then true
  else if path.points.length = 1 then
    decide (distanceToPoint point ((path.points.head?).getD ⟨0, 0, 0, none⟩)
      ≤ (tolerance : ℝ))
  else false

/-- `PathManager.findPathAtPoint`: first (insertion-order) path whose geometry
is within `tolerance` of the point. -/
noncomputable def PathManager.findPathAtPoint (m : PathManager) (point : Point)
    (tolerance : ℚ) : Option String :=
  (m.paths.find? (fun e => isPointNearPath point e.2 tolerance)).map (fun e => e.1)

/-- Accumulator of the segment scan in `PathManager.findNearestPointOnPath`. -/
structure NearState where
  nearestPoint : Point
  minDistance : ℝ
  nearestProgress : ℝ
  accumulatedLength : ℝ

/-- One iteration of the `findNearestPointOnPath` segment loop. -/
noncomputable def nearStep (clickPoint : Point) (now : ℚ) (totalLength : ℝ)
    (p1 p2 : Point) (st : NearState) : NearState :=
  let closestPoint := closestPointOnLineSegment now clickPoint p1 p2
  let distance := distanceToPoint clickPoint closestPoint
  let st1 :=
    if distance < st.minDistance then
      let segmentLength := distanceToPoint p1 p2
      let pointToSegmentStart := distanceToPoint p1 closestPoint
      let progressInSegment :=
        if segmentLength > 0 then pointToSegmentStart / segmentLength else 0
      let nearestProgress :=
        if totalLength > 0 then
          (st.accumulatedLength + progressInSegment * segmentLength) / totalLength
        else 0
      { st with nearestPoint := closestPoint, minDistance := distance,
                nearestProgress := nearestProgress }
    else st
  { st1 with accumulatedLength := st1.accumulatedLength + distanceToPoint p1 p2 }

/-- The `findNearestPointOnPath` loop over consecutive segments: `p1` is the
current segment start, the list holds the remaining points. -/
noncomputable def nearLoop (clickPoint : Point) (now : ℚ) (totalLength : ℝ) :
    Point → List Point → NearState → NearState
  | _, [], st => st
  | p1, p2 :: rest, st =>
      nearLoop clickPoint now totalLength p2 rest
        (nearStep clickPoint now totalLength p1 p2 st)

/-- `PathManager.findNearestPointOnPath`: none on unknown id; otherwise scan
all segments keeping the strictly closest point, and return it with its
accumulated-arc-length progress clamped to `[0,1]`. -/
noncomputable def PathManager.findNearestPointOnPath (m : PathManager)
    (now : ℚ) (clickPoint : Point) (pathId : String) :
    Option (Point × ℝ) :=
  match m.getPath pathId with
  | none => none
  | some path =>
    match path.points with
    | [] => none
    | p0 :: rest =>
      let totalLength := calculatePathLength (p0 :: rest)
      let st0 : NearState :=
        { nearestPoint := p0, minDistance := distanceToPoint clickPoint p0,
          nearestProgress := 0, accumulatedLength := 0 }
      let st := nearLoop clickPoint now totalLength p0 rest st0
      some (st.nearestPoint, max 0 (min 1 st.nearestProgress))

/-- Calls the coordinator makes into the `AudioEngine`'s recording and
playback methods, logged in order. -/
inductive AudioCmd where
  | startRec : AudioCmd
  | stopRec : AudioCmd
  | createLoop (buffer : ArrayBuffer) (pathId : String) (position : ℝ)
      (window : ℝ) : AudioCmd
  | playAt (buffer : ArrayBuffer) (pathId : String) (position : ℝ)
      (rate : ℝ) : AudioCmd
  | stopPlayback (pathId : String) : AudioCmd

/-- Persistent state of the `AudioEngine` class: `isInitialized` is set by a
successful `initialize()`, `permissionGranted` and the microphone stream are
obtained by `requestMicrophonePermission()`, and `recording` tracks whether a
`MediaRecorder` started by `startRecording()` is active. -/
structure AudioEngine where
  isInitialized : Bool
  permissionGranted : Bool
  hasStream : Bool
  recording : Bool

/-- Browser-side outcomes the audio engine depends on during one handler run:
whether `getUserMedia` grants the microphone, whether the `MediaRecorder` is
created and started successfully, and the payload that a `stopRecording()`
call resolves with. -/
structure AudioOracle where
  userMediaGranted : Bool
  recorderOk : Bool
  recResult : Option ArrayBuffer

/-- `AudioEngine.isReady`: initialized and permission granted. -/
def AudioEngine.isReady (e : AudioEngine) : Bool :=
  e.isInitialized && e.permissionGranted

/-- `AudioEngine.requestMicrophonePermission`: short-circuits to true when
permission is already granted and the stream is live; otherwise the
`getUserMedia` outcome decides, and on a grant the stream is kept and the
permission flag set (a denial changes nothing). -/
def AudioEngine.requestMicrophonePermission (e : AudioEngine)
    (userMediaGranted : Bool) : AudioEngine × Bool :=
  if e.permissionGranted && e.hasStream then (e, true)
  else if userMediaGranted then
    ({ e with permissionGranted := true, hasStream := true }, true)
  else (e, false)

/-- `AudioEngine.startRecording`: refuses without permission or stream;
otherwise the `MediaRecorder` creation outcome decides whether a recording
becomes active. -/
def AudioEngine.startRecording (e : AudioEngine) (recorderOk : Bool) :
    AudioEngine × Bool :=
  if !e.permissionGranted || !e.hasStream then (e, false)
  else ({ e with recording := recorderOk }, recorderOk)

/-- `AudioEngine.stopRecording`: resolves with null unless a recorder is
active; otherwise the browser-produced payload (null on a processing
failure). -/
def AudioEngine.stopRecording (e : AudioEngine)
    (recResult : Option ArrayBuffer) : AudioEngine × Option ArrayBuffer :=
  if e.recording then ({ e with recording := false }, recResult)
  else (e, none)

/-- The `if (!this.audioEngine.isReady()) { ... await
requestMicrophonePermission() ... }` dance both input-start branches run:
the resulting engine state, and whether the capability was ready or the
request succeeded. -/
def danceEngine (e : AudioEngine) (userMediaGranted : Bool) :
    AudioEngine × Bool :=
  if e.isReady then (e, true)
  else e.requestMicrophonePermission userMediaGranted

/-- Per-gesture coordinator state of `MelodiaApp`, including its
`audioEngine` component. -/
structure AppState where
  store : PathManager
  audio : AudioEngine
  isAppReady : Bool
  currentRecordingPath : Option String
  playingPaths : List String
  playbackIndicators : List (String × Point)
  activePlaybackPath : Option String
  lastPlaybackPoint : Option Point
  lastPlaybackTime : ℚ
  isMoving : Bool
  lastAudioPosition : ℝ

/-- App state after `init()` completes: empty store, no gesture in flight,
engine initialized iff `initialize()` succeeded, no permission yet. -/
def AppState.initial (initOk : Bool) : AppState :=
  { store := PathManager.empty,
    audio := ⟨initOk, false, false, false⟩, isAppReady := true,
    currentRecordingPath := none, playingPaths := [],
    playbackIndicators := [], activePlaybackPath := none,
    lastPlaybackPoint := none, lastPlaybackTime := 0,
    isMoving := false, lastAudioPosition := 0 }

/-- Update an indicator entry (`Map.set` keyed by path id). -/
def setIndicator (l : List (String × Point)) (pathId : String) (p : Point) :
    List (String × Point) :=
  if l.any (fun e => e.1 == pathId) then
    l.map (fun e => if e.1 == pathId then (pathId, p) else e)
  else l ++ [(pathId, p)]

/-- Remove an indicator entry (`Map.delete`). -/
def removeIndicator (l : List (String × Point)) (pathId : String) :
    List (String × Point) :=
  l.filter (fun e => !(e.1 == pathId))

/-- `MelodiaApp.handlePathPlayback`: enter Scrubbing on a hit path with audio
data, after the permission dance (proceed when `isReady()` or the in-handler
`requestMicrophonePermission()` succeeds, return otherwise); start the
initial stationary loop of 0.2 s at `position = progress * duration`. -/
noncomputable def handlePathPlayback (orc : AudioOracle) (st : AppState)
    (now : ℚ) (pathId : String) (clickPoint : Point) :
    AppState × List AudioCmd :=
  match st.store.getPath pathId with
  | none => (st, [])
  | some path =>
    match path.audioData with
    | none => (st, [])
    | some ad =>
      match st.store.findNearestPointOnPath now clickPoint pathId with
      | none => (st, [])
      | some (nearestPoint, progress) =>
        let danced := danceEngine st.audio orc.userMediaGranted
        if danced.2 = false then ({ st with audio := danced.1 }, [])
        else
          let position := progress * (ad.duration : ℝ)
          ({ st with
              audio := danced.1,
              activePlaybackPath := some pathId,
              lastPlaybackPoint := some nearestPoint,
              lastPlaybackTime := now,
              isMoving := false,
              lastAudioPosition := position,
              playingPaths := addToStringSet st.playingPaths pathId,
              playbackIndicators :=
                setIndicator st.playbackIndicators pathId nearestPoint },
           [AudioCmd.createLoop ad.buffer pathId position 0.2])

/-- `MelodiaApp.handleInputStart`: hit test with tolerance 15; on a hit,
delegate to `handlePathPlayback` and return; otherwise run the permission
dance, call the engine's `startRecording()` exactly when `isReady()` holds
afterwards, and start recording a new path. -/
noncomputable def handleInputStart (orc : AudioOracle) (st : AppState)
    (now wall : ℚ) (point : Point) : AppState × List AudioCmd :=
  if st.isAppReady = false then (st, [])
  else
    match st.store.findPathAtPoint point 15 with
    | some existingPathId => handlePathPlayback orc st now existingPathId point
    | none =>
      let e1 := (danceEngine st.audio orc.userMediaGranted).1
      let started :=
        if e1.isReady then e1.startRecording orc.recorderOk else (e1, false)
      let cmds := if e1.isReady then [AudioCmd.startRec] else []
      let (pathId, store1) := st.store.startRecording now wall point
      ({ st with store := store1, audio := started.1,
                 currentRecordingPath := some pathId }, cmds)

/-- `MelodiaApp.handlePlaybackMove`: movement-threshold gate (5 px from the
tracked point), 100 ms throttle, 50 ms position epsilon, speed-derived rate
clamped to `[0.5, 2.0]`. -/
noncomputable def handlePlaybackMove (st : AppState) (now : ℚ)
    (currentPoint : Point) : AppState × List AudioCmd :=
  match st.activePlaybackPath, st.lastPlaybackPoint with
  | some apid, some lastPt =>
    (match st.store.getPath apid with
     | none => (st, [])
     | some path =>
       match path.audioData with
       | none => (st, [])
       | some ad =>
         let distance := Real.sqrt (dist2 currentPoint lastPt)
         let moving := st.isMoving || decide (distance > 5)
         if moving = false then (st, [])
         else
           let st1 := { st with isMoving := true }
           let deltaTime := now - st.lastPlaybackTime
           if deltaTime < 100 then (st1, [])
           else
             match st.store.findNearestPointOnPath now currentPoint apid with
             | none => (st1, [])
             | some (npt, progress) =>
               let currentAudioPosition := progress * (ad.duration : ℝ)
               let positionDiff := |currentAudioPosition - st.lastAudioPosition|
               let upd :=
                 if positionDiff > 0.05 then
                   let speed :=
                     if (deltaTime : ℝ) > 0
                     then ((distance / deltaTime) * 1000) else 0
                   let playbackRate := max 0.5 (min 2.0 (speed / 100))
                   ({ st1 with lastAudioPosition := currentAudioPosition },
                    [AudioCmd.playAt ad.buffer apid currentAudioPosition
                       playbackRate])
                 else (st1, [])
               ({ upd.1 with
                   playbackIndicators :=
                     setIndicator upd.1.playbackIndicators apid npt,
                   lastPlaybackPoint := some currentPoint,
                   lastPlaybackTime := now }, upd.2))
  | _, _ => (st, [])

/-- `MelodiaApp.handleInputMove`: route to playback scrubbing when a playback
gesture (and no recording) is in flight, else append to the recording path. -/
noncomputable def handleInputMove (st : AppState) (now : ℚ) (point : Point) :
    AppState × List AudioCmd :=
  if st.isAppReady = false then (st, [])
  else if st.activePlaybackPath.isSome && !st.currentRecordingPath.isSome then
    handlePlaybackMove st now point
  else
    match st.currentRecordingPath with
    | some rid => ({ st with store := st.store.addPoint now rid point }, [])
    | none => (st, [])

/-- Store state reached inside `MelodiaApp.handleInputEnd` right after the
`attachAudioData` call (final point appended; audio attached when the recorder
returned a payload) and right before `endRecording`. -/
noncomputable def recordEndMidStore (m : PathManager) (now : ℚ) (rid : String)
    (point : Point) (recResult : Option ArrayBuffer) : PathManager :=
  let m1 := m.addPoint now rid point
  match recResult with
  | some buf => m1.attachAudioData rid buf
  | none => m1

/-- `MelodiaApp.handleInputEnd`: end a scrubbing gesture (stop playback, clear
tracking) or finish a recording (final point, stop the recorder, attach the
payload, `endRecording`). -/
noncomputable def handleInputEnd (orc : AudioOracle) (st : AppState) (now : ℚ)
    (point : Point) : AppState × List AudioCmd :=
  if st.isAppReady = false then (st, [])
  else if st.activePlaybackPath.isSome && !st.currentRecordingPath.isSome then
    match st.activePlaybackPath with
    | some apid =>
      ({ st with
          playingPaths := removeFromStringSet st.playingPaths apid,
          playbackIndicators := removeIndicator st.playbackIndicators apid,
          activePlaybackPath := none,
          lastPlaybackPoint := none,
          isMoving := false,
          lastAudioPosition := 0 }, [AudioCmd.stopPlayback apid])
    | none => (st, [])
  else
    match st.currentRecordingPath with
    | some rid =>
      let stopped := st.audio.stopRecording orc.recResult
      let mid := recordEndMidStore st.store now rid point stopped.2
      ({ st with store := mid.endRecording rid, audio := stopped.1,
                 currentRecordingPath := none }, [AudioCmd.stopRec])
    | none => (st, [])

/-- `MelodiaApp.clearCanvas`. -/
def clearCanvas (st : AppState) : AppState :=
  { st with store := st.store.clearAllPaths }

/-- Observer: the attached audio duration of a stored path, when present. -/
def storedAudioDuration (m : PathManager) (pathId : String) : Option ℚ :=
  match m.getPath pathId with
  | some path =>
    match path.audioData with
    | some ad => some ad.duration
    | none => none
  | none => none

/-- Observer: the attached `metadata.originalSpeed` of a stored path. -/
def storedOriginalSpeed (m : PathManager) (pathId : String) : Option JsNum :=
  match m.getPath pathId with
  | some path =>
    match path.audioData with
    | some ad => some ad.metadata.originalSpeed
    | none => none
  | none => none

/-- Observer: the buffer of the attached audio of a stored path. -/
def storedAudioBuffer (m : PathManager) (pathId : String) : Option ArrayBuffer :=
  match m.getPath pathId with
  | some path =>
    match path.audioData with
    | some ad => some ad.buffer
    | none => none
  | none => none

/-- Observer: whether a stored path has audio data attached. -/
def hasAudioData (m : PathManager) (pathId : String) : Bool :=
  match m.getPath pathId with
  | some path => path.audioData.isSome
  | none => false

/-- Minimum x over a nonempty point list. -/
def foldMinX (p0 : Point) (rest : List Point) : ℚ :=
  rest.foldl (fun a q => min a q.x) p0.x

/-- Maximum x over a nonempty point list. -/
def foldMaxX (p0 : Point) (rest : List Point) : ℚ :=
  rest.foldl (fun a q => max a q.x) p0.x

/-- Minimum y over a nonempty point list. -/
def foldMinY (p0 : Point) (rest : List Point) : ℚ :=
  rest.foldl (fun a q => min a q.y) p0.y

/-- Maximum y over a nonempty point list. -/
def foldMaxY (p0 : Point) (rest : List Point) : ℚ :=
  rest.foldl (fun a q => max a q.y) p0.y

/-- The minimal axis-aligned bounding box of the points `p0 :: rest`. -/
def minAABB (p0 : Point) (rest : List Point) : Rectangle :=
  { x := foldMinX p0 rest, y := foldMinY p0 rest,
    width := foldMaxX p0 rest - foldMinX p0 rest,
    height := foldMaxY p0 rest - foldMinY p0 rest }

/-- A sequence of `addPoint` calls (each with its own clock reading). -/
def addPoints (m : PathManager) (pathId : String) (pts : List (ℚ × Point)) :
    PathManager :=
  pts.foldl (fun acc tp => acc.addPoint tp.1 pathId tp.2) m

/-- One operation on the path store, as the coordinator invokes them. -/
inductive StoreOp where
  | start (now wall : ℚ) (p : Point) : StoreOp
  | add (now : ℚ) (pathId : String) (p : Point) : StoreOp
  | endRec (pathId : String) : StoreOp
  | attach (pathId : String) (buf : ArrayBuffer) : StoreOp
  | delete (pathId : String) : StoreOp
  | clear : StoreOp
deriving DecidableEq

/-- Execute one store operation. -/
noncomputable def execOp (m : PathManager) : StoreOp → PathManager
  | .start now wall p => (m.startRecording now wall p).2
  | .add now pathId p => m.addPoint now pathId p
  | .endRec pathId => m.endRecording pathId
  | .attach pathId buf => m.attachAudioData pathId buf
  | .delete pathId => m.deletePath pathId
  | .clear => m.clearAllPaths

/-- Execute a sequence of store operations. -/
noncomputable def execOps (m : PathManager) (ops : List StoreOp) : PathManager :=
  ops.foldl execOp m

/-- App states reachable from a post-`init()` state through complete
input-event handlers (and `clearCanvas`), over arbitrary browser outcomes,
clock readings and input points. -/
inductive Reachable : AppState → Prop where
  | init (initOk : Bool) : Reachable (AppState.initial initOk)
  | start (orc : AudioOracle) (st : AppState) (now wall : ℚ) (p : Point) :
      Reachable st → Reachable (handleInputStart orc st now wall p).1
  | move (st : AppState) (now : ℚ) (p : Point) :
      Reachable st → Reachable (handleInputMove st now p).1
  | endEv (orc : AudioOracle) (st : AppState) (now : ℚ) (p : Point) :
      Reachable st → Reachable (handleInputEnd orc st now p).1
  | clear (st : AppState) : Reachable st → Reachable (clearCanvas st)

/-- No path id in the active (recording) set has audio data attached. -/
def ActiveNoAudio (m : PathManager) : Prop :=
  ∀ pathId ∈ m.activePaths, ∀ path, m.getPath pathId = some path →
    path.audioData = none

/-- The path currently being recorded (when it exists in the store) has no
audio data attached yet. -/
def RecNoAudio (st : AppState) : Prop :=
  ∀ rid, st.currentRecordingPath = some rid →
    ∀ path, st.store.getPath rid = some path → path.audioData = none

/-- Every stored path id was minted by the counter: it is `path-k` for some
`1 ≤ k ≤ pathCounter`. -/
def IdsBounded (m : PathManager) : Prop :=
  ∀ pid path, m.getPath pid = some path →
    ∃ k, 1 ≤ k ∧ k ≤ m.pathCounter ∧ pid = pathIdOf k

/-- Attached audio data persists from store `m` to store `m'`: any audio data
already attached to a path is still attached, unchanged, as long as the path
remains in the store. -/
def AudioPersists (m m' : PathManager) : Prop :=
  ∀ pid path ad, m.getPath pid = some path → path.audioData = some ad →
    ∀ path', m'.getPath pid = some path' → path'.audioData = some ad

/-- Fold a sequence of move events through `handleInputMove`, collecting all
audio commands issued. -/
noncomputable def moveFold (st : AppState) (moves : List (ℚ × Point)) :
    AppState × List AudioCmd :=
  moves.foldl (fun acc mv =>
    ((handleInputMove acc.1 mv.1 mv.2).1,
     acc.2 ++ (handleInputMove acc.1 mv.1 mv.2).2)) (st, [])

/-- All points lie on the non-vertical line `y = slope * x + intercept`. -/
def OnLineX (slope intercept : ℚ) (pts : List Point) : Prop :=
  ∀ p ∈ pts, p.y = slope * p.x + intercept

/-- All points lie on the line `x = slope * y + intercept` (covers vertical
lines). -/
def OnLineY (slope intercept : ℚ) (pts : List Point) : Prop :=
  ∀ p ∈ pts, p.x = slope * p.y + intercept

/-- Consecutive points strictly increase in x. -/
def StrictIncX (pts : List Point) : Prop :=
  pts.Chain' (fun a b => a.x < b.x)

/-- Consecutive points strictly increase in y. -/
def StrictIncY (pts : List Point) : Prop :=
  pts.Chain' (fun a b => a.y < b.y)

/-- Swap the two coordinates of a point. -/
def swapPoint (p : Point) : Point :=
  { x := p.y, y := p.x, timestamp := p.timestamp, pressure := p.pressure }

/-- Swap the x/y coordinates of the tracked nearest point in a `NearState`. -/
def swapNS (st : NearState) : NearState :=
  { st with nearestPoint := swapPoint st.nearestPoint }

/-- Browser outcomes where every request is denied and every recorder call
fails. -/
def denyOracle : AudioOracle := ⟨false, false, none⟩

/-- Browser outcomes where the microphone is granted, the recorder starts,
and stopping resolves with payload `0`. -/
def grantOracle : AudioOracle := ⟨true, true, some 0⟩

/-- Coordinator state after one complete record gesture at the origin with
the microphone denied: path `path-1` exists with two points at (0,0) and no
audio data. -/
noncomputable def c1State : AppState :=
  (handleInputEnd denyOracle
    (handleInputStart denyOracle (AppState.initial false) 0 0
      ⟨0, 0, 0, none⟩).1
    1 ⟨0, 0, 0, none⟩).1

/-- Result of a second input-start at the origin: it hits `path-1`, which has
no audio data. -/
noncomputable def c1Result : AppState × List AudioCmd :=
  handleInputStart denyOracle c1State 2 2 ⟨0, 0, 0, none⟩

/-- Coordinator state whose store holds `path-1` (single point at the origin,
audio data attached) while the audio engine is uninitialized and without
permission. -/
noncomputable def c1bState : AppState :=
  { store := ((PathManager.empty.startRecording 0 0
        ⟨0, 0, 0, none⟩).2.attachAudioData "path-1" 0).endRecording "path-1",
    audio := ⟨false, false, false, false⟩, isAppReady := true,
    currentRecordingPath := none, playingPaths := [],
    playbackIndicators := [], activePlaybackPath := none,
    lastPlaybackPoint := none, lastPlaybackTime := 0,
    isMoving := false, lastAudioPosition := 0 }

/-- Result of an input-start at the origin on `c1bState` with the microphone
denied: it hits `path-1`, which has audio data, but the permission dance
fails. -/
noncomputable def c1bResult : AppState × List AudioCmd :=
  handleInputStart denyOracle c1bState 2 2 ⟨0, 0, 0, none⟩

/-- Store state reached inside `handleInputEnd` between `attachAudioData` and
`endRecording`, for a one-gesture run with the microphone granted. -/
noncomputable def c2MidStore : PathManager :=
  recordEndMidStore
    (handleInputStart grantOracle (AppState.initial true) 0 0
      ⟨0, 0, 0, none⟩).1.store
    5 "path-1" ⟨1, 0, 0, none⟩ (some 0)

/-- Store holding the three-point horizontal path of the simple record/play
scenario: (0,0) at t=0, (10,0) at t=100, (20,0) at t=200. -/
def c7Store : PathManager :=
  ((PathManager.empty.startRecording 0 0 ⟨0, 0, 0, none⟩).2.addPoint 100
      "path-1" ⟨10, 0, 0, none⟩).addPoint 200 "path-1" ⟨20, 0, 0, none⟩

/-- Clamp a rational to the interval `[a, b]`, mirroring the code's
`param < 0` / `param > 1` clamping transported to x-coordinates. -/
def clampQ (a b t : ℚ) : ℚ :=
  if t < a then a else if t > b then b else t

/-- The x-coordinate of the orthogonal projection of a query point onto the
line `y = slope * x + intercept`. -/
def sigmaLine (slope intercept : ℚ) (q : Point) : ℚ :=
  (q.x + slope * (q.y - intercept)) / (1 + slope ^ 2)

/-- The clamped progress value `findNearestPointOnPath` computes for a path
with point list `p0 :: rest`, as a function of the point data only. -/
noncomputable def pointsProgress (now : ℚ) (q : Point) (p0 : Point)
    (rest : List Point) : ℝ :=
  max 0 (min 1
    (nearLoop q now (calculatePathLength (p0 :: rest)) p0 rest
      ⟨p0, distanceToPoint q p0, 0, 0⟩).nearestProgress)

/-! ## Helper lemmas on the store's map and set operations -/

theorem lookupPath_nil (pathId : String) : lookupPath [] pathId = none := rfl

theorem lookupPath_cons (k : String) (v : AudioPath)
    (t : List (String × AudioPath)) (pathId : String) :
    lookupPath ((k, v) :: t) pathId =
      if k = pathId then some v else lookupPath t pathId := by
  by_cases h : k = pathId
  · subst h
    simp [lookupPath, List.find?]
  · have hb : (k == pathId) = false := by simpa using h
    simp [lookupPath, List.find?, hb, h]

theorem updatePathEntry_cons (k : String) (v : AudioPath)
    (t : List (String × AudioPath)) (pathId : String) (f : AudioPath → AudioPath) :
    updatePathEntry ((k, v) :: t) pathId f =
      (if k = pathId then (k, f v) else (k, v)) :: updatePathEntry t pathId f := by
  by_cases h : k = pathId <;> simp [updatePathEntry, h]

theorem lookupPath_append (l1 l2 : List (String × AudioPath)) (pathId : String) :
    lookupPath (l1 ++ l2) pathId =
      match lookupPath l1 pathId with
      | some v => some v
      | none => lookupPath l2 pathId := by
  induction l1 with
  | nil => simp [lookupPath_nil]
  | cons e t ih =>
    obtain ⟨k, v⟩ := e
    by_cases h : k = pathId <;> simp [lookupPath_cons, h, ih]

theorem lookupPath_updatePathEntry_self (entries : List (String × AudioPath))
    (pathId : String) (f : AudioPath → AudioPath) :
    lookupPath (updatePathEntry entries pathId f) pathId =
      (lookupPath entries pathId).map f := by
  induction entries with
  | nil => rfl
  | cons e t ih =>
    obtain ⟨k, v⟩ := e
    rw [updatePathEntry_cons]
    by_cases h : k = pathId
    · simp [h, lookupPath_cons]
    · simp only [h, if_false]
      rw [lookupPath_cons, lookupPath_cons]
      simp [h, ih]

theorem lookupPath_updatePathEntry_ne (entries : List (String × AudioPath))
    (pathId id' : String) (f : AudioPath → AudioPath) (hne : pathId ≠ id') :
    lookupPath (updatePathEntry entries pathId f) id' =
      lookupPath entries id' := by
  induction entries with
  | nil => rfl
  | cons e t ih =>
    obtain ⟨k, v⟩ := e
    rw [updatePathEntry_cons]
    by_cases h : k = pathId
    · subst h
      have h2 : ¬ k = id' := hne
      simp only [if_true]
      rw [lookupPath_cons, lookupPath_cons]
      simp [h2, ih]
    · simp only [h, if_false]
      rw [lookupPath_cons, lookupPath_cons]
      by_cases h2 : k = id' <;> simp [h2, ih]

theorem setPath_eq_update_of_mem (entries : List (String × AudioPath))
    (pathId : String) (path : AudioPath)
    (h : entries.any (fun e => e.1 == pathId) = true) :
    setPath entries pathId path =
      updatePathEntry entries pathId (fun _ => path) := by
  simp only [setPath, h, if_true, updatePathEntry]
  apply List.map_congr_left
  intro e _
  by_cases hk : e.1 = pathId
  · simp [hk]
  · simp [hk]

theorem lookupPath_eq_none_of_not_any (entries : List (String × AudioPath))
    (pathId : String) (h : entries.any (fun e => e.1 == pathId) = false) :
    lookupPath entries pathId = none := by
  induction entries with
  | nil => rfl
  | cons e t ih =>
    obtain ⟨k, v⟩ := e
    simp only [List.any_cons, Bool.or_eq_false_iff] at h
    have hk : ¬ k = pathId := by
      intro hkk
      rw [hkk] at h
      simp at h
    rw [lookupPath_cons]
    simp only [hk, if_false]
    exact ih h.2

theorem lookupPath_isSome_of_any (entries : List (String × AudioPath))
    (pathId : String) (h : entries.any (fun e => e.1 == pathId) = true) :
    ∃ v, lookupPath entries pathId = some v := by
  induction entries with
  | nil => simp at h
  | cons e t ih =>
    obtain ⟨k, v⟩ := e
    by_cases hk : k = pathId
    · exact ⟨v, by rw [lookupPath_cons]; simp [hk]⟩
    · have h' : t.any (fun e => e.1 == pathId) = true := by
        simp only [List.any_cons] at h
        rcases Bool.or_eq_true_iff.mp h with h1 | h2
        · exact absurd (by simpa using h1) hk
        · exact h2
      obtain ⟨v', hv'⟩ := ih h'
      exact ⟨v', by rw [lookupPath_cons]; simp [hk, hv']⟩

theorem lookupPath_setPath_self (entries : List (String × AudioPath))
    (pathId : String) (path : AudioPath) :
    lookupPath (setPath entries pathId path) pathId = some path := by
  cases hb : entries.any (fun e => e.1 == pathId) with
  | true =>
    rw [setPath_eq_update_of_mem entries pathId path hb,
        lookupPath_updatePathEntry_self]
    obtain ⟨v, hv⟩ := lookupPath_isSome_of_any entries pathId hb
    simp [hv]
  | false =>
    simp only [setPath, hb, Bool.false_eq_true, if_false]
    rw [lookupPath_append]
    have hnone := lookupPath_eq_none_of_not_any entries pathId hb
    simp [hnone, lookupPath_cons]

theorem lookupPath_setPath_ne (entries : List (String × AudioPath))
    (pathId id' : String) (path : AudioPath) (hne : pathId ≠ id') :
    lookupPath (setPath entries pathId path) id' = lookupPath entries id' := by
  cases hb : entries.any (fun e => e.1 == pathId) with
  | true =>
    rw [setPath_eq_update_of_mem entries pathId path hb,
        lookupPath_updatePathEntry_ne entries pathId id' _ hne]
  | false =>
    simp only [setPath, hb, Bool.false_eq_true, if_false]
    rw [lookupPath_append]
    cases hl : lookupPath entries id' with
    | some v => simp
    | none => simp [lookupPath_cons, hne, lookupPath_nil]

theorem mem_addToStringSet (l : List String) (s s' : String) :
    s' ∈ addToStringSet l s ↔ s' ∈ l ∨ s' = s := by
  by_cases h : s ∈ l
  · have hb : l.contains s = true := List.elem_iff.mpr h
    simp only [addToStringSet, hb, if_true]
    constructor
    · exact fun hm => Or.inl hm
    · rintro (hm | rfl)
      · exact hm
      · exact h
  · have hb : l.contains s = false := by
      by_contra hc
      exact h (List.elem_iff.mp (by simpa using hc))
    simp only [addToStringSet, hb, Bool.false_eq_true, if_false]
    simp [List.mem_append]

theorem mem_removeFromStringSet (l : List String) (s s' : String) :
    s' ∈ removeFromStringSet l s ↔ s' ∈ l ∧ s' ≠ s := by
  simp [removeFromStringSet]

/-! ## Effects of the store operations on `getPath` and `activePaths` -/

theorem getPath_addPoint_self (m : PathManager) (now : ℚ) (pathId : String)
    (point : Point) (path : AudioPath) (h : m.getPath pathId = some path) :
    (m.addPoint now pathId point).getPath pathId =
      some { path with
              points := path.points ++ [{ point with timestamp := now }],
              boundingBox :=
                updateBoundingBox path.boundingBox
                  { point with timestamp := now } } := by
  have h' : lookupPath m.paths pathId = some path := h
  simp only [PathManager.addPoint, h', PathManager.getPath]
  rw [lookupPath_updatePathEntry_self, h']
  rfl

theorem getPath_addPoint_ne (m : PathManager) (now : ℚ) (pathId id' : String)
    (point : Point) (hne : pathId ≠ id') :
    (m.addPoint now pathId point).getPath id' = m.getPath id' := by
  cases hl : lookupPath m.paths pathId with
  | none => simp only [PathManager.addPoint, hl]
  | some path =>
    simp only [PathManager.addPoint, hl, PathManager.getPath]
    rw [lookupPath_updatePathEntry_ne _ _ _ _ hne]

theorem activePaths_addPoint (m : PathManager) (now : ℚ) (pathId : String)
    (point : Point) :
    (m.addPoint now pathId point).activePaths = m.activePaths := by
  cases hl : lookupPath m.paths pathId <;>
    simp only [PathManager.addPoint, hl]

theorem getPath_attachAudioData_self (m : PathManager) (pathId : String)
    (buf : ArrayBuffer) (path : AudioPath) (h : m.getPath pathId = some path) :
    (m.attachAudioData pathId buf).getPath pathId =
      some { path with audioData := some (attachedAudio path buf) } := by
  have h' : lookupPath m.paths pathId = some path := h
  simp only [PathManager.attachAudioData, h', PathManager.getPath]
  rw [lookupPath_updatePathEntry_self, h']
  rfl

theorem getPath_attachAudioData_ne (m : PathManager) (pathId id' : String)
    (buf : ArrayBuffer) (hne : pathId ≠ id') :
    (m.attachAudioData pathId buf).getPath id' = m.getPath id' := by
  cases hl : lookupPath m.paths pathId with
  | none => simp only [PathManager.attachAudioData, hl]
  | some path =>
    simp only [PathManager.attachAudioData, hl, PathManager.getPath]
    rw [lookupPath_updatePathEntry_ne _ _ _ _ hne]

theorem activePaths_attachAudioData (m : PathManager) (pathId : String)
    (buf : ArrayBuffer) :
    (m.attachAudioData pathId buf).activePaths = m.activePaths := by
  cases hl : lookupPath m.paths pathId <;>
    simp only [PathManager.attachAudioData, hl]

theorem getPath_startRecording_self (m : PathManager) (now wall : ℚ)
    (point : Point) :
    (m.startRecording now wall point).2.getPath
        (m.startRecording now wall point).1 =
      some { id := pathIdOf (m.pathCounter + 1),
             points := [{ point with timestamp := now }],
             audioData := none,
             style := getDefaultStyle,
             boundingBox := createBoundingBox { point with timestamp := now },
             createdAt := wall } := by
  simp only [PathManager.startRecording, PathManager.getPath]
  rw [lookupPath_setPath_self]

theorem getPath_startRecording_ne (m : PathManager) (now wall : ℚ)
    (point : Point) (id' : String)
    (hne : pathIdOf (m.pathCounter + 1) ≠ id') :
    (m.startRecording now wall point).2.getPath id' = m.getPath id' := by
  simp only [PathManager.startRecording, PathManager.getPath]
  rw [lookupPath_setPath_ne _ _ _ _ hne]

/-! ## Path length basics -/

theorem foldl_add_dist_nonneg (l : List (Point × Point)) :
    ∀ acc : ℝ, 0 ≤ acc →
      0 ≤ l.foldl (fun acc pq => acc + distanceToPoint pq.1 pq.2) acc := by
  induction l with
  | nil => exact fun acc h => h
  | cons pq t ih =>
    intro acc hacc
    exact ih _ (add_nonneg hacc (Real.sqrt_nonneg _))

theorem calculatePathLength_nonneg (pts : List Point) :
    0 ≤ calculatePathLength pts := by
  unfold calculatePathLength
  exact foldl_add_dist_nonneg _ 0 le_rfl

theorem calculatePathLength_single (p : Point) :
    calculatePathLength [p] = 0 := rfl

/-! ## C5 -/

/-- C5: `addPoint` and `attachAudioData` on a path id not present in the store
do not fail and leave the entire store state unchanged. -/
theorem unknown_id_ops_are_noops (m : PathManager) (now : ℚ) (pathId : String)
    (point : Point) (buf : ArrayBuffer) (h : m.getPath pathId = none) :
    m.addPoint now pathId point = m ∧ m.attachAudioData pathId buf = m := by
  have h' : lookupPath m.paths pathId = none := h
  constructor
  · simp only [PathManager.addPoint, h']
  · simp only [PathManager.attachAudioData, h']

/-- Witness for C5 at the empty store and id `nonexistent`. -/
theorem unknown_id_ops_are_noops_witness :
    PathManager.empty.addPoint 0 "nonexistent" ⟨1, 2, 3, none⟩ =
        PathManager.empty ∧
    PathManager.empty.attachAudioData "nonexistent" 7 = PathManager.empty :=
  unknown_id_ops_are_noops PathManager.empty 0 "nonexistent" ⟨1, 2, 3, none⟩ 7
    rfl

/-! ## C10 -/

/-- C10: the duration stored by `attachAudioData` equals the drawing-gesture
time span (last minus first point timestamp, milliseconds to seconds; 0 for
fewer than 2 points) and does not depend on the audio payload. -/
theorem attached_duration_is_gesture_span (m : PathManager) (pathId : String)
    (path : AudioPath) (buf buf' : ArrayBuffer)
    (h : m.getPath pathId = some path) :
    storedAudioDuration (m.attachAudioData pathId buf) pathId =
      some (getRecordingDuration path.points / 1000) ∧
    (path.points.length < 2 →
      storedAudioDuration (m.attachAudioData pathId buf) pathId = some 0) ∧
    storedAudioDuration (m.attachAudioData pathId buf) pathId =
      storedAudioDuration (m.attachAudioData pathId buf') pathId := by
  have h1 := getPath_attachAudioData_self m pathId buf path h
  have h2 := getPath_attachAudioData_self m pathId buf' path h
  refine ⟨?_, ?_, ?_⟩
  · simp [storedAudioDuration, h1, attachedAudio]
  · intro hlen
    simp [storedAudioDuration, h1, attachedAudio, getRecordingDuration, hlen]
  · simp [storedAudioDuration, h1, h2, attachedAudio]

/-- Witness for C10 on a freshly recorded single-point path. -/
theorem attached_duration_is_gesture_span_witness :
    storedAudioDuration
        ((PathManager.empty.startRecording 0 0 ⟨0, 0, 0, none⟩).2.attachAudioData
          "path-1" 3) "path-1" = some 0 :=
  (attached_duration_is_gesture_span
      (PathManager.empty.startRecording 0 0 ⟨0, 0, 0, none⟩).2 "path-1"
      ⟨"path-1", [⟨0, 0, 0, none⟩], none, getDefaultStyle, ⟨0, 0, 0, 0⟩, 0⟩
      3 3 rfl).2.1 (by decide)

/-! ## C3 -/

/-- C3 counterexample: attaching audio to the single-point path `path-1`
stores `metadata.originalSpeed = NaN` (the raw result of `0 / 0`), so the
division by a zero recording duration is not guarded. -/
theorem zero_duration_stores_nan_counterexample :
    storedOriginalSpeed
        ((PathManager.empty.startRecording 0 0 ⟨0, 0, 0, none⟩).2.attachAudioData
          "path-1" 0) "path-1" = some JsNum.nan := by
  have h : (PathManager.empty.startRecording 0 0 ⟨0, 0, 0, none⟩).2.getPath
      "path-1" =
      some ⟨"path-1", [⟨0, 0, 0, none⟩], none, getDefaultStyle, ⟨0, 0, 0, 0⟩, 0⟩ :=
    rfl
  have h1 := getPath_attachAudioData_self _ "path-1" 0 _ h
  simp only [storedOriginalSpeed, h1, attachedAudio, calculatePathLength_single]
  have hdur : getRecordingDuration [(⟨0, 0, 0, none⟩ : Point)] = 0 := by decide
  rw [hdur]
  norm_num [jsDiv]

/-- C3 corrected: `attachAudioData` does not guard the division. With a zero
recording duration it stores duration 0 and the raw JS division result as
`originalSpeed`: `NaN` when the path length is 0, `Infinity` otherwise. -/
theorem attach_zero_duration_unguarded (m : PathManager) (pathId : String)
    (path : AudioPath) (buf : ArrayBuffer) (h : m.getPath pathId = some path)
    (hdur : getRecordingDuration path.points = 0) :
    storedAudioDuration (m.attachAudioData pathId buf) pathId = some 0 ∧
    storedOriginalSpeed (m.attachAudioData pathId buf) pathId =
      some (if calculatePathLength path.points = 0 then JsNum.nan
            else JsNum.posInf) := by
  have h1 := getPath_attachAudioData_self m pathId buf path h
  constructor
  · simp [storedAudioDuration, h1, attachedAudio, hdur]
  · simp only [storedOriginalSpeed, h1, attachedAudio, hdur]
    by_cases hz : calculatePathLength path.points = 0
    · norm_num [jsDiv, hz]
    · have hpos : 0 < calculatePathLength path.points :=
        lt_of_le_of_ne (calculatePathLength_nonneg _) (Ne.symm hz)
      norm_num [jsDiv, hz, hpos]

/-- Witness for the corrected C3 on a freshly recorded single-point path. -/
theorem attach_zero_duration_unguarded_witness :
    storedAudioDuration
        ((PathManager.empty.startRecording 0 0 ⟨0, 0, 0, none⟩).2.attachAudioData
          "path-1" 1) "path-1" = some 0 :=
  (attach_zero_duration_unguarded
      (PathManager.empty.startRecording 0 0 ⟨0, 0, 0, none⟩).2 "path-1"
      ⟨"path-1", [⟨0, 0, 0, none⟩], none, getDefaultStyle, ⟨0, 0, 0, 0⟩, 0⟩
      1 rfl (by decide)).1

/-! ## Injectivity of the minted path ids -/

theorem digitChar_inj_of_lt (a b : ℕ) (ha : a < 10) (hb : b < 10)
    (h : Nat.digitChar a = Nat.digitChar b) : a = b := by
  have key : ∀ x : Fin 10, ∀ y : Fin 10,
      Nat.digitChar x.val = Nat.digitChar y.val → x.val = y.val := by decide
  exact key ⟨a, ha⟩ ⟨b, hb⟩ h

theorem map_digitChar_inj (l1 : List ℕ) :
    ∀ l2 : List ℕ, (∀ d ∈ l1, d < 10) → (∀ d ∈ l2, d < 10) →
      l1.map Nat.digitChar = l2.map Nat.digitChar → l1 = l2 := by
  induction l1 with
  | nil =>
    intro l2 _ _ h
    cases l2 with
    | nil => rfl
    | cons b t2 => simp at h
  | cons a t ih =>
    intro l2 h1 h2 h
    cases l2 with
    | nil => simp at h
    | cons b t2 =>
      simp only [List.map_cons, List.cons.injEq] at h
      have hab : a = b :=
        digitChar_inj_of_lt a b (h1 a (by simp)) (h2 b (by simp)) h.1
      have ht : t = t2 :=
        ih t2 (fun d hd => h1 d (by simp [hd]))
          (fun d hd => h2 d (by simp [hd])) h.2
      rw [hab, ht]

theorem toDigitsCore_eq_digits (fuel : ℕ) :
    ∀ n : ℕ, ∀ ds : List Char, 0 < n → n < 10 ^ fuel →
      Nat.toDigitsCore 10 fuel n ds =
        ((Nat.digits 10 n).reverse.map Nat.digitChar) ++ ds := by
  induction fuel with
  | zero =>
    intro n ds hn hfuel
    simp at hfuel
    omega
  | succ fuel ih =>
    intro n ds hn hfuel
    rw [Nat.toDigitsCore]
    by_cases hz : n / 10 = 0
    · have hlt : n < 10 := by omega
      have hmod : n % 10 = n := Nat.mod_eq_of_lt hlt
      have hdig : Nat.digits 10 n = [n] := by
        rw [Nat.digits_def' (by norm_num : (1:ℕ) < 10) hn, hz, hmod]
        simp
      simp [hz, hdig, hmod]
    · have hpos : 0 < n / 10 := Nat.pos_of_ne_zero hz
      have hsm : n / 10 < 10 ^ fuel := by
        rw [Nat.div_lt_iff_lt_mul (by norm_num : 0 < 10)]
        calc n < 10 ^ (fuel + 1) := hfuel
        _ = 10 ^ fuel * 10 := by ring
      have hrec := ih (n / 10) ((n % 10).digitChar :: ds) hpos hsm
      simp only [hz, if_false]
      rw [hrec, Nat.digits_def' (by norm_num : (1:ℕ) < 10) hn]
      simp

theorem toDigits_eq_digits (n : ℕ) (hn : 0 < n) :
    Nat.toDigits 10 n = (Nat.digits 10 n).reverse.map Nat.digitChar := by
  have hfuel : n < 10 ^ (n + 1) :=
    lt_of_lt_of_le (Nat.lt_pow_self (by norm_num) n)
      (Nat.pow_le_pow_right (by norm_num) (Nat.le_succ n))
  simpa [Nat.toDigits] using toDigitsCore_eq_digits (n + 1) n [] hn hfuel

theorem natRepr_injective : Function.Injective Nat.repr := by
  intro m n h
  have h' : Nat.toDigits 10 m = Nat.toDigits 10 n := by
    have : (Nat.toDigits 10 m).asString = (Nat.toDigits 10 n).asString := h
    exact List.asString_inj.mp this
  have zeroCase : ∀ k : ℕ, 0 < k →
      Nat.toDigits 10 k ≠ Nat.toDigits 10 0 := by
    intro k hk hbad
    have hk' : Nat.toDigits 10 k = [Nat.digitChar 0] := by
      rw [hbad]; rfl
    rw [toDigits_eq_digits k hk] at hk'
    have hlen : (Nat.digits 10 k).length = 1 := by
      have := congrArg List.length hk'
      simpa using this
    obtain ⟨d, hd⟩ : ∃ d, Nat.digits 10 k = [d] := by
      cases hdig : Nat.digits 10 k with
      | nil => rw [hdig] at hlen; simp at hlen
      | cons d t =>
        rw [hdig] at hlen
        simp at hlen
        exact ⟨d, by rw [hlen]⟩
    rw [hd] at hk'
    simp only [List.reverse_cons, List.reverse_nil, List.nil_append,
      List.map_cons, List.map_nil, List.cons.injEq] at hk'
    have hd10 : d < 10 :=
      Nat.digits_lt_base (by norm_num) (by rw [hd]; simp)
    have hd0 : d = 0 := digitChar_inj_of_lt d 0 hd10 (by norm_num) hk'.1
    have hofd := Nat.ofDigits_digits 10 k
    rw [hd, hd0] at hofd
    have : k = 0 := by simpa [Nat.ofDigits] using hofd.symm
    omega
  rcases Nat.eq_zero_or_pos m with hm | hm
  · rcases Nat.eq_zero_or_pos n with hn | hn
    · omega
    · exact absurd (hm ▸ h'.symm) (zeroCase n hn)
  · rcases Nat.eq_zero_or_pos n with hn | hn
    · exact absurd (hn ▸ h') (zeroCase m hm)
    · rw [toDigits_eq_digits m hm, toDigits_eq_digits n hn] at h'
      have hrev : (Nat.digits 10 m).reverse = (Nat.digits 10 n).reverse :=
        map_digitChar_inj _ _
          (fun d hd => Nat.digits_lt_base (by norm_num) (List.mem_reverse.mp hd))
          (fun d hd => Nat.digits_lt_base (by norm_num) (List.mem_reverse.mp hd))
          h'
      have hdig : Nat.digits 10 m = Nat.digits 10 n :=
        List.reverse_injective hrev
      calc m = Nat.ofDigits 10 (Nat.digits 10 m) := (Nat.ofDigits_digits 10 m).symm
      _ = Nat.ofDigits 10 (Nat.digits 10 n) := by rw [hdig]
      _ = n := Nat.ofDigits_digits 10 n

theorem pathIdOf_injective : Function.Injective pathIdOf := by
  intro m n h
  have hdata : (pathIdOf m).data = (pathIdOf n).data := congrArg String.data h
  simp only [pathIdOf, String.data_append] at hdata
  have h2 : (toString m).data = (toString n).data :=
    List.append_cancel_left hdata
  have h3 : toString m = toString n := by
    cases hm : toString m with
    | mk dm =>
      cases hn : toString n with
      | mk dn =>
        rw [hm, hn] at h2
        exact congrArg String.mk (by simpa using h2)
  exact natRepr_injective h3

/-! ## C4 -/

theorem pathCounter_addPoint (m : PathManager) (now : ℚ) (pathId : String)
    (point : Point) :
    (m.addPoint now pathId point).pathCounter = m.pathCounter := by
  cases hl : lookupPath m.paths pathId <;>
    simp only [PathManager.addPoint, hl]

theorem pathCounter_attachAudioData (m : PathManager) (pathId : String)
    (buf : ArrayBuffer) :
    (m.attachAudioData pathId buf).pathCounter = m.pathCounter := by
  cases hl : lookupPath m.paths pathId <;>
    simp only [PathManager.attachAudioData, hl]

theorem pathCounter_execOp_mono (m : PathManager) (op : StoreOp)
    (hop : op ≠ StoreOp.clear) :
    m.pathCounter ≤ (execOp m op).pathCounter := by
  cases op with
  | start now wall p =>
    show m.pathCounter ≤ m.pathCounter + 1
    omega
  | add now pathId p =>
    rw [show execOp m (StoreOp.add now pathId p) = m.addPoint now pathId p
        from rfl, pathCounter_addPoint]
  | endRec pathId => exact le_rfl
  | attach pathId buf =>
    rw [show execOp m (StoreOp.attach pathId buf) = m.attachAudioData pathId buf
        from rfl, pathCounter_attachAudioData]
  | delete pathId => exact le_rfl
  | clear => exact absurd rfl hop

theorem pathCounter_execOps_mono (m : PathManager) (ops : List StoreOp)
    (hops : StoreOp.clear ∉ ops) :
    m.pathCounter ≤ (execOps m ops).pathCounter := by
  induction ops generalizing m with
  | nil => exact le_rfl
  | cons op t ih =>
    have h1 : op ≠ StoreOp.clear := fun hc => hops (by simp [hc])
    have h2 : StoreOp.clear ∉ t := fun hc => hops (by simp [hc])
    exact le_trans (pathCounter_execOp_mono m op h1) (ih _ h2)

/-- C4 counterexample: `startRecording`, `clearAllPaths`, `startRecording` is
a sequence the store supports, and both `startRecording` calls return the
same id `path-1`, so ids are reused across a clear. -/
theorem id_reuse_after_clear_counterexample :
    (PathManager.empty.startRecording 0 0 ⟨0, 0, 0, none⟩).1 =
      ((PathManager.empty.startRecording 0 0 ⟨0, 0, 0, none⟩).2.clearAllPaths.startRecording
        1 1 ⟨0, 0, 0, none⟩).1 := rfl

/-- C4 corrected: any two `startRecording` calls with no intervening
`clearAllPaths` return distinct ids (the id counter is strictly monotone and
the minted ids are injective in it); `clearAllPaths` resets the counter to 0,
so the next `startRecording` returns `path-1` again and ids can be reused. -/
theorem startRecording_ids_fresh_between_clears (m : PathManager)
    (ops : List StoreOp) (hops : StoreOp.clear ∉ ops)
    (now1 wall1 now2 wall2 : ℚ) (p1 p2 : Point) :
    (m.startRecording now1 wall1 p1).1 ≠
      ((execOps (m.startRecording now1 wall1 p1).2 ops).startRecording
        now2 wall2 p2).1 ∧
    ∀ m' : PathManager, ∀ now wall : ℚ, ∀ p : Point,
      (m'.clearAllPaths.startRecording now wall p).1 = pathIdOf 1 := by
  constructor
  · have hc : (m.startRecording now1 wall1 p1).2.pathCounter =
        m.pathCounter + 1 := rfl
    have hm := pathCounter_execOps_mono (m.startRecording now1 wall1 p1).2
      ops hops
    rw [hc] at hm
    intro heq
    have h1 : (m.startRecording now1 wall1 p1).1 =
        pathIdOf (m.pathCounter + 1) := rfl
    have h2 : ((execOps (m.startRecording now1 wall1 p1).2 ops).startRecording
        now2 wall2 p2).1 =
        pathIdOf ((execOps (m.startRecording now1 wall1 p1).2 ops).pathCounter
          + 1) := rfl
    rw [h1, h2] at heq
    have := pathIdOf_injective heq
    omega
  · intro m' now wall p
    rfl

/-- Witness for the corrected C4 with an empty intervening operation list. -/
theorem startRecording_ids_fresh_between_clears_witness :
    (PathManager.empty.startRecording 0 0 ⟨0, 0, 0, none⟩).1 ≠
      ((execOps (PathManager.empty.startRecording 0 0 ⟨0, 0, 0, none⟩).2
        []).startRecording 1 1 ⟨0, 0, 0, none⟩).1 :=
  (startRecording_ids_fresh_between_clears PathManager.empty []
    (by simp) 0 0 1 1 ⟨0, 0, 0, none⟩ ⟨0, 0, 0, none⟩).1

/-! ## C6 -/

theorem foldl_min_le_foldl_max (t : List Point) (f : Point → ℚ) :
    ∀ a b : ℚ, a ≤ b →
      t.foldl (fun acc q => min acc (f q)) a ≤
        t.foldl (fun acc q => max acc (f q)) b := by
  induction t with
  | nil => exact fun a b h => h
  | cons q t ih =>
    intro a b h
    exact ih _ _ (le_trans (min_le_left _ _) (le_trans h (le_max_left _ _)))

theorem foldMinX_le_foldMaxX (p0 : Point) (rest : List Point) :
    foldMinX p0 rest ≤ foldMaxX p0 rest :=
  foldl_min_le_foldl_max rest (fun q => q.x) p0.x p0.x le_rfl

theorem foldMinY_le_foldMaxY (p0 : Point) (rest : List Point) :
    foldMinY p0 rest ≤ foldMaxY p0 rest :=
  foldl_min_le_foldl_max rest (fun q => q.y) p0.y p0.y le_rfl

theorem foldMinX_append (p0 : Point) (rest : List Point) (q : Point) :
    foldMinX p0 (rest ++ [q]) = min (foldMinX p0 rest) q.x := by
  simp [foldMinX, List.foldl_append]

theorem foldMaxX_append (p0 : Point) (rest : List Point) (q : Point) :
    foldMaxX p0 (rest ++ [q]) = max (foldMaxX p0 rest) q.x := by
  simp [foldMaxX, List.foldl_append]

theorem foldMinY_append (p0 : Point) (rest : List Point) (q : Point) :
    foldMinY p0 (rest ++ [q]) = min (foldMinY p0 rest) q.y := by
  simp [foldMinY, List.foldl_append]

theorem foldMaxY_append (p0 : Point) (rest : List Point) (q : Point) :
    foldMaxY p0 (rest ++ [q]) = max (foldMaxY p0 rest) q.y := by
  simp [foldMaxY, List.foldl_append]

theorem updateBoundingBox_min_max (mnx mny mxx mxy : ℚ) (q : Point)
    (hx : mnx ≤ mxx) (hy : mny ≤ mxy) :
    updateBoundingBox ⟨mnx, mny, mxx - mnx, mxy - mny⟩ q =
      ⟨min mnx q.x, min mny q.y, max mxx q.x - min mnx q.x,
       max mxy q.y - min mny q.y⟩ := by
  simp only [updateBoundingBox]
  split_ifs <;>
    (rw [Rectangle.mk.injEq]
     refine ⟨?_, ?_, ?_, ?_⟩ <;>
       (simp only [min_def, max_def] at * <;> split_ifs at * <;> linarith))

theorem boxFold_eq_minAABB (p0 : Point) (qs : List Point) :
    qs.foldl updateBoundingBox (createBoundingBox p0) = minAABB p0 qs := by
  induction qs using List.reverseRecOn with
  | nil =>
    simp [minAABB, foldMinX, foldMaxX, foldMinY, foldMaxY, createBoundingBox]
  | append_singleton t q ih =>
    rw [List.foldl_append, List.foldl_cons, List.foldl_nil, ih]
    rw [show minAABB p0 t =
        (⟨foldMinX p0 t, foldMinY p0 t, foldMaxX p0 t - foldMinX p0 t,
          foldMaxY p0 t - foldMinY p0 t⟩ : Rectangle) from rfl]
    rw [updateBoundingBox_min_max _ _ _ _ q (foldMinX_le_foldMaxX p0 t)
        (foldMinY_le_foldMaxY p0 t)]
    rw [show minAABB p0 (t ++ [q]) =
        (⟨foldMinX p0 (t ++ [q]), foldMinY p0 (t ++ [q]),
          foldMaxX p0 (t ++ [q]) - foldMinX p0 (t ++ [q]),
          foldMaxY p0 (t ++ [q]) - foldMinY p0 (t ++ [q])⟩ : Rectangle)
        from rfl]
    rw [foldMinX_append, foldMaxX_append, foldMinY_append, foldMaxY_append]

theorem getPath_addPoints (pts : List (ℚ × Point)) :
    ∀ (m : PathManager) (pathId : String) (path : AudioPath),
      m.getPath pathId = some path →
      (addPoints m pathId pts).getPath pathId =
        some { path with
          points := path.points ++
            pts.map (fun tp => { tp.2 with timestamp := tp.1 }),
          boundingBox :=
            (pts.map (fun tp => { tp.2 with timestamp := tp.1 })).foldl
              updateBoundingBox path.boundingBox } := by
  induction pts with
  | nil =>
    intro m pathId path h
    simpa [addPoints] using h
  | cons tp t ih =>
    intro m pathId path h
    have h1 := getPath_addPoint_self m tp.1 pathId tp.2 path h
    have h2 := ih (m.addPoint tp.1 pathId tp.2) pathId _ h1
    show (addPoints (m.addPoint tp.1 pathId tp.2) pathId t).getPath pathId = _
    rw [h2]
    simp

/-- C6: for a path created by `startRecording` and extended by any sequence of
`addPoint` calls, the stored bounding box is the minimal axis-aligned bounding
box of exactly the stored points (degenerate box for a single point), and the
stored points are the seeded point followed by the appended ones. Quantifying
over the appended list covers every prefix of the point sequence. -/
theorem boundingBox_is_minimal_AABB (m : PathManager) (now wall : ℚ)
    (p : Point) (pts : List (ℚ × Point)) (path : AudioPath)
    (h : (addPoints (m.startRecording now wall p).2
            (m.startRecording now wall p).1 pts).getPath
          (m.startRecording now wall p).1 = some path) :
    path.boundingBox =
      minAABB { p with timestamp := now }
        (pts.map (fun tp => { tp.2 with timestamp := tp.1 })) ∧
    path.points =
      { p with timestamp := now } ::
        pts.map (fun tp => { tp.2 with timestamp := tp.1 }) := by
  have h0 := getPath_startRecording_self m now wall p
  have h1 := getPath_addPoints pts _ _ _ h0
  rw [h] at h1
  have h2 := Option.some.inj h1
  rw [h2]
  constructor
  · show (pts.map (fun tp => { tp.2 with timestamp := tp.1 })).foldl
        updateBoundingBox (createBoundingBox { p with timestamp := now }) = _
    exact boxFold_eq_minAABB _ _
  · simp

/-- Witness for C6: seed at (0,0), append (10,5); the box is 10 wide, 5 tall
at the origin. -/
theorem boundingBox_is_minimal_AABB_witness :
    (⟨"path-1", [⟨0, 0, 0, none⟩, ⟨10, 5, 1, none⟩], none, getDefaultStyle,
        ⟨0, 0, 10, 5⟩, 0⟩ : AudioPath).boundingBox =
      minAABB ⟨0, 0, 0, none⟩ [⟨10, 5, 1, none⟩] ∧
    (⟨"path-1", [⟨0, 0, 0, none⟩, ⟨10, 5, 1, none⟩], none, getDefaultStyle,
        ⟨0, 0, 10, 5⟩, 0⟩ : AudioPath).points =
      ⟨0, 0, 0, none⟩ :: [⟨10, 5, 1, none⟩] := by
  have hstep : (addPoints (PathManager.empty.startRecording 0 0
        ⟨0, 0, 0, none⟩).2
      (PathManager.empty.startRecording 0 0 ⟨0, 0, 0, none⟩).1
      [(1, ⟨10, 5, 7, none⟩)]).getPath
      (PathManager.empty.startRecording 0 0 ⟨0, 0, 0, none⟩).1 =
      some ⟨"path-1", [⟨0, 0, 0, none⟩, ⟨10, 5, 1, none⟩], none,
        getDefaultStyle, ⟨0, 0, 10, 5⟩, 0⟩ := by
    rw [getPath_addPoints _ _ _ _
      (getPath_startRecording_self PathManager.empty 0 0 ⟨0, 0, 0, none⟩)]
    norm_num [updateBoundingBox, createBoundingBox]
    rfl
  have h := boundingBox_is_minimal_AABB PathManager.empty 0 0 ⟨0, 0, 0, none⟩
    [(1, ⟨10, 5, 7, none⟩)]
    ⟨"path-1", [⟨0, 0, 0, none⟩, ⟨10, 5, 1, none⟩], none, getDefaultStyle,
      ⟨0, 0, 10, 5⟩, 0⟩ hstep
  simpa using h

/-! ## C2 -/

theorem handlePathPlayback_store (orc : AudioOracle) (st : AppState) (now : ℚ)
    (pathId : String) (p : Point) :
    (handlePathPlayback orc st now pathId p).1.store = st.store := by
  unfold handlePathPlayback
  repeat first
  | rfl
  | split
  | dsimp only

theorem handlePathPlayback_cur (orc : AudioOracle) (st : AppState) (now : ℚ)
    (pathId : String) (p : Point) :
    (handlePathPlayback orc st now pathId p).1.currentRecordingPath =
      st.currentRecordingPath := by
  unfold handlePathPlayback
  repeat first
  | rfl
  | split
  | dsimp only

theorem handlePlaybackMove_store (st : AppState) (now : ℚ) (p : Point) :
    (handlePlaybackMove st now p).1.store = st.store := by
  unfold handlePlaybackMove
  repeat first
  | rfl
  | split
  | dsimp only

theorem handleInputStart_shape (orc : AudioOracle) (st : AppState)
    (now wall : ℚ) (p : Point) :
    ((handleInputStart orc st now wall p).1.store = st.store ∧
      (handleInputStart orc st now wall p).1.currentRecordingPath =
        st.currentRecordingPath) ∨
    ((handleInputStart orc st now wall p).1.store =
        (st.store.startRecording now wall p).2 ∧
      (handleInputStart orc st now wall p).1.currentRecordingPath =
        some (st.store.startRecording now wall p).1) := by
  unfold handleInputStart
  split
  · exact Or.inl ⟨rfl, rfl⟩
  · split
    · exact Or.inl ⟨handlePathPlayback_store _ _ _ _ _,
        handlePathPlayback_cur _ _ _ _ _⟩
    · exact Or.inr ⟨rfl, rfl⟩

theorem handleInputStart_store (orc : AudioOracle) (st : AppState)
    (now wall : ℚ) (p : Point) :
    (handleInputStart orc st now wall p).1.store = st.store ∨
    (handleInputStart orc st now wall p).1.store =
      (st.store.startRecording now wall p).2 := by
  rcases handleInputStart_shape orc st now wall p with ⟨h, _⟩ | ⟨h, _⟩
  · exact Or.inl h
  · exact Or.inr h

theorem handleInputMove_store (st : AppState) (now : ℚ) (p : Point) :
    (handleInputMove st now p).1.store = st.store ∨
    ∃ rid, st.currentRecordingPath = some rid ∧
      (handleInputMove st now p).1.store = st.store.addPoint now rid p := by
  unfold handleInputMove
  split
  · exact Or.inl rfl
  · split
    · exact Or.inl (handlePlaybackMove_store _ _ _)
    · split
      · rename_i rid heq
        exact Or.inr ⟨rid, heq, rfl⟩
      · exact Or.inl rfl

theorem handleInputMove_cur (st : AppState) (now : ℚ) (p : Point) :
    (handleInputMove st now p).1.currentRecordingPath =
      st.currentRecordingPath := by
  unfold handleInputMove
  split
  · rfl
  · split
    · unfold handlePlaybackMove
      repeat first
      | rfl
      | split
      | dsimp only
    · split
      · rfl
      · rfl

theorem handleInputEnd_shape (orc : AudioOracle) (st : AppState) (now : ℚ)
    (p : Point) :
    ((handleInputEnd orc st now p).1.store = st.store ∧
      (handleInputEnd orc st now p).1.currentRecordingPath =
        st.currentRecordingPath) ∨
    ∃ rid, st.currentRecordingPath = some rid ∧
      (handleInputEnd orc st now p).1.store =
        (recordEndMidStore st.store now rid p
          (st.audio.stopRecording orc.recResult).2).endRecording rid ∧
      (handleInputEnd orc st now p).1.currentRecordingPath = none := by
  unfold handleInputEnd
  split
  · exact Or.inl ⟨rfl, rfl⟩
  · split
    · split
      · exact Or.inl ⟨rfl, rfl⟩
      · exact Or.inl ⟨rfl, rfl⟩
    · split
      · rename_i rid heq
        exact Or.inr ⟨rid, heq, rfl, rfl⟩
      · exact Or.inl ⟨rfl, rfl⟩

theorem handleInputEnd_store (orc : AudioOracle) (st : AppState) (now : ℚ)
    (p : Point) :
    (handleInputEnd orc st now p).1.store = st.store ∨
    ∃ rid, st.currentRecordingPath = some rid ∧
      (handleInputEnd orc st now p).1.store =
        (recordEndMidStore st.store now rid p
          (st.audio.stopRecording orc.recResult).2).endRecording rid := by
  rcases handleInputEnd_shape orc st now p with ⟨h, _⟩ | ⟨rid, h1, h2, _⟩
  · exact Or.inl h
  · exact Or.inr ⟨rid, h1, h2⟩

theorem getPath_endRecording (m : PathManager) (rid pathId : String) :
    (m.endRecording rid).getPath pathId = m.getPath pathId := rfl

theorem activePaths_endRecording (m : PathManager) (rid : String) :
    (m.endRecording rid).activePaths = removeFromStringSet m.activePaths rid :=
  rfl

theorem activePaths_startRecording (m : PathManager) (now wall : ℚ) (p : Point) :
    (m.startRecording now wall p).2.activePaths =
      addToStringSet m.activePaths (pathIdOf (m.pathCounter + 1)) := rfl

theorem ActiveNoAudio_startRecording (m : PathManager) (now wall : ℚ)
    (p : Point) (h : ActiveNoAudio m) :
    ActiveNoAudio (m.startRecording now wall p).2 := by
  intro pathId hmem path hget
  rw [activePaths_startRecording] at hmem
  have hmem' : pathId ∈ m.activePaths ∨ pathId = pathIdOf (m.pathCounter + 1) :=
    (mem_addToStringSet _ _ _).mp hmem
  by_cases heq : pathIdOf (m.pathCounter + 1) = pathId
  · rw [show pathId = (m.startRecording now wall p).1 from heq.symm,
      getPath_startRecording_self] at hget
    cases hget
    rfl
  · rw [getPath_startRecording_ne m now wall p pathId heq] at hget
    rcases hmem' with hm | hm
    · exact h pathId hm path hget
    · exact absurd hm.symm heq

theorem ActiveNoAudio_addPoint (m : PathManager) (now : ℚ) (pathId : String)
    (p : Point) (h : ActiveNoAudio m) :
    ActiveNoAudio (m.addPoint now pathId p) := by
  intro id' hmem path hget
  rw [activePaths_addPoint] at hmem
  by_cases heq : pathId = id'
  · subst heq
    cases hp : m.getPath pathId with
    | none =>
      rw [(unknown_id_ops_are_noops m now pathId p 0 hp).1] at hget
      exact h pathId hmem path hget
    | some path0 =>
      rw [getPath_addPoint_self m now pathId p path0 hp] at hget
      cases hget
      exact h pathId hmem path0 hp
  · rw [getPath_addPoint_ne m now pathId id' p heq] at hget
    exact h id' hmem path hget

theorem ActiveNoAudio_endRecording_recordEndMid (m : PathManager) (now : ℚ)
    (rid : String) (p : Point) (recResult : Option ArrayBuffer)
    (h : ActiveNoAudio m) :
    ActiveNoAudio ((recordEndMidStore m now rid p recResult).endRecording rid) := by
  intro id' hmem path hget
  rw [activePaths_endRecording] at hmem
  have hmem' := (mem_removeFromStringSet _ _ _).mp hmem
  have hne : rid ≠ id' := fun hc => hmem'.2 hc.symm
  rw [getPath_endRecording] at hget
  have hmid : (recordEndMidStore m now rid p recResult).getPath id' =
      (m.addPoint now rid p).getPath id' := by
    unfold recordEndMidStore
    cases recResult with
    | none => rfl
    | some buf => exact getPath_attachAudioData_ne _ rid id' buf hne
  rw [hmid, getPath_addPoint_ne m now rid id' p hne] at hget
  have hact : (recordEndMidStore m now rid p recResult).activePaths =
      m.activePaths := by
    unfold recordEndMidStore
    cases recResult with
    | none => exact activePaths_addPoint m now rid p
    | some buf =>
      rw [activePaths_attachAudioData, activePaths_addPoint]
  rw [hact] at hmem'
  exact h id' hmem'.1 path hget

theorem getPath_empty (pid : String) : PathManager.empty.getPath pid = none :=
  rfl

theorem getPath_clearAllPaths (m : PathManager) (pid : String) :
    m.clearAllPaths.getPath pid = none := rfl

theorem pathCounter_startRecording (m : PathManager) (now wall : ℚ)
    (p : Point) :
    (m.startRecording now wall p).2.pathCounter = m.pathCounter + 1 := rfl

theorem pathCounter_endRecording (m : PathManager) (rid : String) :
    (m.endRecording rid).pathCounter = m.pathCounter := rfl

theorem startRecording_fst (m : PathManager) (now wall : ℚ) (p : Point) :
    (m.startRecording now wall p).1 = pathIdOf (m.pathCounter + 1) := rfl

theorem IdsBounded_startRecording (m : PathManager) (now wall : ℚ) (p : Point)
    (h : IdsBounded m) : IdsBounded (m.startRecording now wall p).2 := by
  intro pid path hget
  simp only [pathCounter_startRecording]
  by_cases heq : pathIdOf (m.pathCounter + 1) = pid
  · exact ⟨m.pathCounter + 1, by omega, le_rfl, heq.symm⟩
  · rw [getPath_startRecording_ne m now wall p pid heq] at hget
    obtain ⟨k, h1, h2, h3⟩ := h pid path hget
    exact ⟨k, h1, by omega, h3⟩

theorem IdsBounded_addPoint (m : PathManager) (now : ℚ) (rid : String)
    (p : Point) (h : IdsBounded m) : IdsBounded (m.addPoint now rid p) := by
  intro pid path' hget'
  simp only [pathCounter_addPoint]
  by_cases heq : rid = pid
  · subst heq
    cases hp : m.getPath rid with
    | none =>
      rw [(unknown_id_ops_are_noops m now rid p 0 hp).1, hp] at hget'
      cases hget'
    | some q =>
      rw [getPath_addPoint_self m now rid p q hp] at hget'
      exact h rid q hp
  · rw [getPath_addPoint_ne m now rid pid p heq] at hget'
    exact h pid path' hget'

theorem IdsBounded_attach (m : PathManager) (rid : String) (buf : ArrayBuffer)
    (h : IdsBounded m) : IdsBounded (m.attachAudioData rid buf) := by
  intro pid path' hget'
  simp only [pathCounter_attachAudioData]
  by_cases heq : rid = pid
  · subst heq
    cases hp : m.getPath rid with
    | none =>
      rw [(unknown_id_ops_are_noops m 0 rid ⟨0, 0, 0, none⟩ buf hp).2, hp]
        at hget'
      cases hget'
    | some q =>
      rw [getPath_attachAudioData_self m rid buf q hp] at hget'
      exact h rid q hp
  · rw [getPath_attachAudioData_ne m rid pid buf heq] at hget'
    exact h pid path' hget'

theorem IdsBounded_recordEndMid (m : PathManager) (now : ℚ) (rid : String)
    (p : Point) (recRes : Option ArrayBuffer) (h : IdsBounded m) :
    IdsBounded ((recordEndMidStore m now rid p recRes).endRecording rid) := by
  intro pid path hget
  rw [getPath_endRecording] at hget
  simp only [pathCounter_endRecording]
  unfold recordEndMidStore at hget ⊢
  cases recRes with
  | none => exact IdsBounded_addPoint m now rid p h pid path hget
  | some buf =>
    exact IdsBounded_attach (m.addPoint now rid p) rid buf
      (IdsBounded_addPoint m now rid p h) pid path hget

theorem AudioPersists_refl (m : PathManager) : AudioPersists m m := by
  intro pid path ad hget had path' hget'
  rw [hget] at hget'
  cases hget'
  exact had

theorem AudioPersists_startRecording (m : PathManager) (now wall : ℚ)
    (p : Point) (h : IdsBounded m) :
    AudioPersists m (m.startRecording now wall p).2 := by
  intro pid path ad hget had path' hget'
  by_cases heq : pathIdOf (m.pathCounter + 1) = pid
  · obtain ⟨k, h1, h2, h3⟩ := h pid path hget
    rw [h3] at heq
    have hk := pathIdOf_injective heq
    omega
  · rw [getPath_startRecording_ne m now wall p pid heq, hget] at hget'
    cases hget'
    exact had

theorem getPath_addPoint_audio (m : PathManager) (now : ℚ) (rid pid : String)
    (p : Point) (path : AudioPath) (hget : m.getPath pid = some path) :
    ∃ path1, (m.addPoint now rid p).getPath pid = some path1 ∧
      path1.audioData = path.audioData := by
  by_cases heq : rid = pid
  · subst heq
    exact ⟨_, getPath_addPoint_self m now rid p path hget, rfl⟩
  · exact ⟨path, by rw [getPath_addPoint_ne m now rid pid p heq]; exact hget,
      rfl⟩

theorem AudioPersists_addPoint (m : PathManager) (now : ℚ) (rid : String)
    (p : Point) : AudioPersists m (m.addPoint now rid p) := by
  intro pid path ad hget had path' hget'
  obtain ⟨path1, hg1, ha1⟩ := getPath_addPoint_audio m now rid pid p path hget
  rw [hg1] at hget'
  cases hget'
  rw [ha1]
  exact had

theorem AudioPersists_attach_fresh (m : PathManager) (rid : String)
    (buf : ArrayBuffer)
    (hnone : ∀ path, m.getPath rid = some path → path.audioData = none) :
    AudioPersists m (m.attachAudioData rid buf) := by
  intro pid path ad hget had path' hget'
  by_cases heq : rid = pid
  · subst heq
    rw [hnone path hget] at had
    cases had
  · rw [getPath_attachAudioData_ne m rid pid buf heq, hget] at hget'
    cases hget'
    exact had

theorem AudioPersists_recordEndMid (m : PathManager) (now : ℚ) (rid : String)
    (p : Point) (recRes : Option ArrayBuffer)
    (hnone : ∀ path, m.getPath rid = some path → path.audioData = none) :
    AudioPersists m ((recordEndMidStore m now rid p recRes).endRecording rid) := by
  intro pid path ad hget had path' hget'
  rw [getPath_endRecording] at hget'
  unfold recordEndMidStore at hget'
  cases recRes with
  | none =>
      exact AudioPersists_addPoint m now rid p pid path ad hget had path' hget'
  | some buf =>
    have hmid : ∀ q, (m.addPoint now rid p).getPath rid = some q →
        q.audioData = none := by
      intro q hq
      cases hp : m.getPath rid with
      | none =>
        rw [(unknown_id_ops_are_noops m now rid p 0 hp).1, hp] at hq
        cases hq
      | some q0 =>
        rw [getPath_addPoint_self m now rid p q0 hp] at hq
        cases hq
        exact hnone q0 hp
    obtain ⟨path1, hg1, ha1⟩ := getPath_addPoint_audio m now rid pid p path hget
    exact AudioPersists_attach_fresh (m.addPoint now rid p) rid buf hmid
      pid path1 ad hg1 (ha1.trans had) path' hget'

theorem AudioPersists_clear (m : PathManager) :
    AudioPersists m m.clearAllPaths := by
  intro pid path ad hget had path' hget'
  rw [getPath_clearAllPaths] at hget'
  cases hget'

/-- The combined coordinator invariant: no active path has audio data, the
path currently being recorded has none yet, and every stored id was minted
by the counter. -/
theorem reachable_inv (st : AppState) (h : Reachable st) :
    ActiveNoAudio st.store ∧ RecNoAudio st ∧ IdsBounded st.store := by
  induction h with
  | init b =>
    refine ⟨?_, ?_, ?_⟩
    · intro pathId hmem
      simp [AppState.initial, PathManager.empty] at hmem
    · intro rid hr
      simp [AppState.initial] at hr
    · intro pid path hget
      rw [show (AppState.initial b).store = PathManager.empty from rfl,
        getPath_empty] at hget
      cases hget
  | start orc st now wall p hst ih =>
    obtain ⟨ihA, ihR, ihI⟩ := ih
    rcases handleInputStart_shape orc st now wall p with ⟨hs, hc⟩ | ⟨hs, hc⟩
    · refine ⟨?_, ?_, ?_⟩
      · rw [hs]; exact ihA
      · intro rid hr path hget
        rw [hc] at hr
        rw [hs] at hget
        exact ihR rid hr path hget
      · rw [hs]; exact ihI
    · refine ⟨?_, ?_, ?_⟩
      · rw [hs]; exact ActiveNoAudio_startRecording st.store now wall p ihA
      · intro rid hr path hget
        rw [hc] at hr
        cases hr
        rw [hs, getPath_startRecording_self] at hget
        cases hget
        rfl
      · rw [hs]; exact IdsBounded_startRecording st.store now wall p ihI
  | move st now p hst ih =>
    obtain ⟨ihA, ihR, ihI⟩ := ih
    have hc := handleInputMove_cur st now p
    rcases handleInputMove_store st now p with hs | ⟨rid0, hr0, hs⟩
    · refine ⟨?_, ?_, ?_⟩
      · rw [hs]; exact ihA
      · intro rid hr path hget
        rw [hc] at hr
        rw [hs] at hget
        exact ihR rid hr path hget
      · rw [hs]; exact ihI
    · refine ⟨?_, ?_, ?_⟩
      · rw [hs]; exact ActiveNoAudio_addPoint st.store now rid0 p ihA
      · intro rid hr path hget
        rw [hc, hr0] at hr
        cases hr
        rw [hs] at hget
        cases hp : st.store.getPath rid0 with
        | none =>
          rw [(unknown_id_ops_are_noops st.store now rid0 p 0 hp).1, hp]
            at hget
          cases hget
        | some q =>
          rw [getPath_addPoint_self st.store now rid0 p q hp] at hget
          cases hget
          exact ihR rid0 hr0 q hp
      · rw [hs]; exact IdsBounded_addPoint st.store now rid0 p ihI
  | endEv orc st now p hst ih =>
    obtain ⟨ihA, ihR, ihI⟩ := ih
    rcases handleInputEnd_shape orc st now p with ⟨hs, hc⟩ | ⟨rid0, hr0, hs, hc⟩
    · refine ⟨?_, ?_, ?_⟩
      · rw [hs]; exact ihA
      · intro rid hr path hget
        rw [hc] at hr
        rw [hs] at hget
        exact ihR rid hr path hget
      · rw [hs]; exact ihI
    · refine ⟨?_, ?_, ?_⟩
      · rw [hs]
        exact ActiveNoAudio_endRecording_recordEndMid st.store now rid0 p
          (st.audio.stopRecording orc.recResult).2 ihA
      · intro rid hr
        rw [hc] at hr
        cases hr
      · rw [hs]
        exact IdsBounded_recordEndMid st.store now rid0 p
          (st.audio.stopRecording orc.recResult).2 ihI
  | clear st hst ih =>
    refine ⟨?_, ?_, ?_⟩
    · intro pathId hmem
      simp [clearCanvas, PathManager.clearAllPaths] at hmem
    · intro rid hr path hget
      rw [show (clearCanvas st).store = st.store.clearAllPaths from rfl,
        getPath_clearAllPaths] at hget
      cases hget
    · intro pid path hget
      rw [show (clearCanvas st).store = st.store.clearAllPaths from rfl,
        getPath_clearAllPaths] at hget
      cases hget

/-- C2 corrected: at every handler boundary reachable from a post-init
state, no path id in the active (recording) set has audio data attached;
and audio data is set at most once: every handler step from a reachable
state preserves, unchanged, the audio data already attached to any stored
path (only the attach-before-endRecording ordering inside `handleInputEnd`
is violated, mid-handler). -/
theorem reachable_ActiveNoAudio (st : AppState) (h : Reachable st) :
    ActiveNoAudio st.store ∧
    (∀ orc now wall p,
      AudioPersists st.store (handleInputStart orc st now wall p).1.store) ∧
    (∀ now p, AudioPersists st.store (handleInputMove st now p).1.store) ∧
    (∀ orc now p,
      AudioPersists st.store (handleInputEnd orc st now p).1.store) ∧
    AudioPersists st.store (clearCanvas st).store := by
  obtain ⟨hA, hR, hI⟩ := reachable_inv st h
  refine ⟨hA, ?_, ?_, ?_, ?_⟩
  · intro orc now wall p
    rcases handleInputStart_store orc st now wall p with hs | hs
    · rw [hs]; exact AudioPersists_refl _
    · rw [hs]; exact AudioPersists_startRecording st.store now wall p hI
  · intro now p
    rcases handleInputMove_store st now p with hs | ⟨rid, _, hs⟩
    · rw [hs]; exact AudioPersists_refl _
    · rw [hs]; exact AudioPersists_addPoint st.store now rid p
  · intro orc now p
    rcases handleInputEnd_store orc st now p with hs | ⟨rid, hr, hs⟩
    · rw [hs]; exact AudioPersists_refl _
    · rw [hs]
      exact AudioPersists_recordEndMid st.store now rid p
        (st.audio.stopRecording orc.recResult).2 (hR rid hr)
  · exact AudioPersists_clear st.store

/-- Witness for the corrected C2 at a post-init state. -/
theorem reachable_ActiveNoAudio_witness :
    ActiveNoAudio (AppState.initial true).store :=
  (reachable_ActiveNoAudio (AppState.initial true) (Reachable.init true)).1

theorem c2_start_store :
    (handleInputStart grantOracle (AppState.initial true) 0 0
        ⟨0, 0, 0, none⟩).1.store =
      (PathManager.empty.startRecording 0 0 ⟨0, 0, 0, none⟩).2 := rfl

/-- C2 counterexample: within `handleInputEnd` of an ordinary record gesture,
`attachAudioData` runs before `endRecording`, so the coordinator's own
operation sequence passes through a store state in which `path-1` is still in
the active (recording) set and already has audio data attached. -/
theorem active_path_with_audioData_counterexample :
    c2MidStore.activePaths.contains "path-1" = true ∧
    hasAudioData c2MidStore "path-1" = true := by
  have hstore : c2MidStore =
      (((PathManager.empty.startRecording 0 0 ⟨0, 0, 0, none⟩).2.addPoint 5
        "path-1" ⟨1, 0, 0, none⟩).attachAudioData "path-1" 0) := by
    unfold c2MidStore
    rw [c2_start_store]
    rfl
  have hid : (PathManager.empty.startRecording 0 0 ⟨0, 0, 0, none⟩).1 =
      "path-1" := rfl
  have hget0 := getPath_startRecording_self PathManager.empty 0 0 ⟨0, 0, 0, none⟩
  rw [hid] at hget0
  have hget1 := getPath_addPoint_self
    (PathManager.empty.startRecording 0 0 ⟨0, 0, 0, none⟩).2 5 "path-1"
    ⟨1, 0, 0, none⟩ _ hget0
  have hget2 := getPath_attachAudioData_self
    ((PathManager.empty.startRecording 0 0 ⟨0, 0, 0, none⟩).2.addPoint 5
      "path-1" ⟨1, 0, 0, none⟩) "path-1" 0 _ hget1
  constructor
  · rw [hstore, activePaths_attachAudioData, activePaths_addPoint]
    rfl
  · rw [hstore]
    simp [hasAudioData, hget2]

/-! ## C9 -/

theorem sqrt_dist2_not_gt_5 (q p0 : Point) (hdist : dist2 q p0 ≤ 25) :
    ¬ (Real.sqrt (dist2 q p0) > 5) := by
  have hc : ((dist2 q p0 : ℚ) : ℝ) ≤ 25 := by exact_mod_cast hdist
  have h1 : Real.sqrt (dist2 q p0) ≤ Real.sqrt 25 := Real.sqrt_le_sqrt hc
  have h2 : Real.sqrt 25 = 5 := by
    rw [show (25 : ℝ) = 5 ^ 2 by norm_num, Real.sqrt_sq (by norm_num : (0:ℝ) ≤ 5)]
  rw [h2] at h1
  exact not_lt.mpr h1

theorem handleInputMove_jitter_step (st : AppState) (now : ℚ) (q : Point)
    (apid : String) (p0 : Point)
    (hready : st.isAppReady = true)
    (hap : st.activePlaybackPath = some apid)
    (hcur : st.currentRecordingPath = none)
    (hlp : st.lastPlaybackPoint = some p0)
    (hmov : st.isMoving = false)
    (hdist : dist2 q p0 ≤ 25) :
    handleInputMove st now q = (st, []) := by
  have hdec : decide (Real.sqrt (dist2 q p0) > 5) = false :=
    decide_eq_false (sqrt_dist2_not_gt_5 q p0 hdist)
  unfold handleInputMove
  rw [hready]
  simp only [Bool.true_eq_false, if_false, hap, hcur, Option.isSome_some,
    Option.isSome_none, Bool.not_false, Bool.and_true, if_true]
  unfold handlePlaybackMove
  split
  · rename_i apid' lastPt' heq1 heq2
    rw [hlp] at heq2
    obtain rfl : lastPt' = p0 := (Option.some.inj heq2).symm
    split
    · rfl
    · split
      · rfl
      · simp [hmov, hdec]
  · rfl

theorem jitter_fold_aux (p0 : Point) (apid : String) (moves : List (ℚ × Point)) :
    ∀ (st : AppState) (cs : List AudioCmd),
      st.isAppReady = true →
      st.activePlaybackPath = some apid →
      st.currentRecordingPath = none →
      st.lastPlaybackPoint = some p0 →
      st.isMoving = false →
      (∀ mv ∈ moves, dist2 mv.2 p0 ≤ 25) →
      moves.foldl (fun acc mv =>
        ((handleInputMove acc.1 mv.1 mv.2).1,
         acc.2 ++ (handleInputMove acc.1 mv.1 mv.2).2)) (st, cs) = (st, cs) := by
  induction moves with
  | nil => intro st cs _ _ _ _ _ _; rfl
  | cons mv t ih =>
    intro st cs hready hap hcur hlp hmov hdist
    have hstep := handleInputMove_jitter_step st mv.1 mv.2 apid p0 hready hap
      hcur hlp hmov (hdist mv (by simp))
    simp only [List.foldl_cons, hstep, List.append_nil]
    exact ih st cs hready hap hcur hlp hmov
      (fun m hm => hdist m (by simp [hm]))

/-- C9: in the Scrubbing state (an active playback path with tracked point
`p0`, not moving), a sequence of move events whose points all lie within the
5 px movement threshold of `p0` issues no audio command at all — playback
stays at the single initial loop — and leaves the coordinator state
unchanged. -/
theorem jitter_suppression (st : AppState) (apid : String) (p0 : Point)
    (moves : List (ℚ × Point))
    (hready : st.isAppReady = true)
    (hap : st.activePlaybackPath = some apid)
    (hcur : st.currentRecordingPath = none)
    (hlp : st.lastPlaybackPoint = some p0)
    (hmov : st.isMoving = false)
    (hdist : ∀ mv ∈ moves, dist2 mv.2 p0 ≤ 25) :
    moveFold st moves = (st, []) :=
  jitter_fold_aux p0 apid moves st [] hready hap hcur hlp hmov hdist

/-- Witness for C9: two jitter moves at distance exactly 5 px around the
tracked point produce no audio commands. -/
theorem jitter_suppression_witness :
    moveFold
      { store := PathManager.empty, audio := ⟨false, false, false, false⟩,
        isAppReady := true,
        currentRecordingPath := none, playingPaths := ["p"],
        playbackIndicators := [], activePlaybackPath := some "p",
        lastPlaybackPoint := some ⟨0, 0, 0, none⟩, lastPlaybackTime := 0,
        isMoving := false, lastAudioPosition := 0 }
      [(50, ⟨3, 4, 0, none⟩), (200, ⟨0, 5, 0, none⟩)] =
    ({ store := PathManager.empty, audio := ⟨false, false, false, false⟩,
       isAppReady := true,
       currentRecordingPath := none, playingPaths := ["p"],
       playbackIndicators := [], activePlaybackPath := some "p",
       lastPlaybackPoint := some ⟨0, 0, 0, none⟩, lastPlaybackTime := 0,
       isMoving := false, lastAudioPosition := 0 }, []) :=
  jitter_suppression _ "p" ⟨0, 0, 0, none⟩ _ rfl rfl rfl rfl rfl
    (by
      intro mv hm
      rcases List.mem_cons.mp hm with h | h
      · subst h
        norm_num [dist2]
      · rcases List.mem_cons.mp h with h2 | h2
        · subst h2
          norm_num [dist2]
        · simp at h2)

/-! ## C1 -/

theorem danceEngine_fail (e : AudioEngine) (g : Bool)
    (h : (danceEngine e g).2 = false) : (danceEngine e g).1 = e := by
  unfold danceEngine AudioEngine.requestMicrophonePermission at h ⊢
  split_ifs at h ⊢ <;> first
  | rfl
  | cases h

/-- C1 corrected: on input-start, (1) a hit on a path with audio data enters
Scrubbing on that path (with the initial 0.2 s loop command), provided the
audio engine is ready or the in-handler microphone permission request
succeeds; (2) no hit enters Recording: a new path is created via
`startRecording` and becomes the current recording target, and the engine's
`startRecording()` is called exactly when `isReady()` holds after the
permission dance; (3) a hit on a path without audio data does nothing — no
scrubbing, no recording, no new path, no audio command; (4) a hit on a path
with audio data when the engine is not ready and the permission request is
denied also does nothing. -/
theorem handleInputStart_behavior (orc : AudioOracle) (st : AppState)
    (now wall : ℚ) (point : Point) (hready : st.isAppReady = true) :
    (∀ pathId path ad npt prog,
      st.store.findPathAtPoint point 15 = some pathId →
      st.store.getPath pathId = some path →
      path.audioData = some ad →
      st.store.findNearestPointOnPath now point pathId = some (npt, prog) →
      (danceEngine st.audio orc.userMediaGranted).2 = true →
      handleInputStart orc st now wall point =
        ({ st with
            audio := (danceEngine st.audio orc.userMediaGranted).1,
            activePlaybackPath := some pathId,
            lastPlaybackPoint := some npt,
            lastPlaybackTime := now,
            isMoving := false,
            lastAudioPosition := prog * (ad.duration : ℝ),
            playingPaths := addToStringSet st.playingPaths pathId,
            playbackIndicators :=
              setIndicator st.playbackIndicators pathId npt },
         [AudioCmd.createLoop ad.buffer pathId (prog * (ad.duration : ℝ))
            0.2])) ∧
    (st.store.findPathAtPoint point 15 = none →
      (handleInputStart orc st now wall point).1.currentRecordingPath =
        some (st.store.startRecording now wall point).1 ∧
      (handleInputStart orc st now wall point).1.store =
        (st.store.startRecording now wall point).2 ∧
      (handleInputStart orc st now wall point).2 =
        (if (danceEngine st.audio orc.userMediaGranted).1.isReady
         then [AudioCmd.startRec] else [])) ∧
    (∀ pathId path,
      st.store.findPathAtPoint point 15 = some pathId →
      st.store.getPath pathId = some path →
      path.audioData = none →
      handleInputStart orc st now wall point = (st, [])) ∧
    (∀ pathId path ad,
      st.store.findPathAtPoint point 15 = some pathId →
      st.store.getPath pathId = some path →
      path.audioData = some ad →
      (danceEngine st.audio orc.userMediaGranted).2 = false →
      handleInputStart orc st now wall point = (st, [])) := by
  refine ⟨?_, ?_, ?_, ?_⟩
  · intro pathId path ad npt prog hfind hget had hnear hgate
    unfold handleInputStart
    simp only [hready, Bool.true_eq_false, if_false, hfind]
    unfold handlePathPlayback
    simp [hget, had, hnear, hgate, hready]
  · intro hfind
    unfold handleInputStart
    simp only [hready, Bool.true_eq_false, if_false, hfind]
    exact ⟨trivial, trivial, trivial⟩
  · intro pathId path hfind hget had
    unfold handleInputStart
    simp only [hready, Bool.true_eq_false, if_false, hfind]
    unfold handlePathPlayback
    simp [hget, had]
  · intro pathId path ad hfind hget had hgate
    unfold handleInputStart
    simp only [hready, Bool.true_eq_false, if_false, hfind]
    unfold handlePathPlayback
    cases hnear : st.store.findNearestPointOnPath now point pathId with
    | none => simp [hget, had, hnear]
    | some pr =>
      simp only [hget, had, hnear]
      rw [if_pos (by rw [hgate])]
      rw [danceEngine_fail st.audio orc.userMediaGranted hgate]

/-- Witness for the corrected C1: on the empty store with a denied
microphone there is no hit, a new recording path `path-1` is created and
targeted, and no audio command is issued. -/
theorem handleInputStart_behavior_witness :
    (handleInputStart denyOracle (AppState.initial false) 0 0
        ⟨0, 0, 0, none⟩).1.currentRecordingPath = some "path-1" ∧
    (handleInputStart denyOracle (AppState.initial false) 0 0
        ⟨0, 0, 0, none⟩).1.store =
      (PathManager.empty.startRecording 0 0 ⟨0, 0, 0, none⟩).2 ∧
    (handleInputStart denyOracle (AppState.initial false) 0 0
        ⟨0, 0, 0, none⟩).2 = [] :=
  have h := (handleInputStart_behavior denyOracle (AppState.initial false) 0 0
    ⟨0, 0, 0, none⟩ rfl).2.1 rfl
  ⟨h.1, h.2.1, by rw [h.2.2]; rfl⟩

theorem c1_box_fix : updateBoundingBox ⟨0, 0, 0, 0⟩ ⟨0, 0, 1, none⟩ =
    (⟨0, 0, 0, 0⟩ : Rectangle) := by
  norm_num [updateBoundingBox]

theorem c1_getPath :
    c1State.store.getPath "path-1" =
      some ⟨"path-1", [⟨0, 0, 0, none⟩, ⟨0, 0, 1, none⟩], none,
        getDefaultStyle, ⟨0, 0, 0, 0⟩, 0⟩ := by
  have hstore : c1State.store =
      ((PathManager.empty.startRecording 0 0 ⟨0, 0, 0, none⟩).2.addPoint 1
        "path-1" ⟨0, 0, 0, none⟩).endRecording "path-1" := rfl
  have hid : (PathManager.empty.startRecording 0 0 ⟨0, 0, 0, none⟩).1 =
      "path-1" := rfl
  have hget0 := getPath_startRecording_self PathManager.empty 0 0 ⟨0, 0, 0, none⟩
  rw [hid] at hget0
  have hget1 := getPath_addPoint_self
    (PathManager.empty.startRecording 0 0 ⟨0, 0, 0, none⟩).2 1 "path-1"
    ⟨0, 0, 0, none⟩ _ hget0
  rw [hstore, getPath_endRecording, hget1]
  simp [c1_box_fix, createBoundingBox,
    show pathIdOf (PathManager.empty.pathCounter + 1) = "path-1" from rfl]

theorem c1_paths :
    c1State.store.paths =
      [("path-1", ⟨"path-1", [⟨0, 0, 0, none⟩, ⟨0, 0, 1, none⟩], none,
        getDefaultStyle, ⟨0, 0, 0, 0⟩, 0⟩)] := by
  have h1 : c1State.store.paths =
      updatePathEntry
        [("path-1",
          ⟨"path-1", [⟨0, 0, 0, none⟩], none, getDefaultStyle, ⟨0, 0, 0, 0⟩, 0⟩)]
        "path-1"
        (fun p =>
          { p with points := p.points ++ [⟨0, 0, 1, none⟩], boundingBox := updateBoundingBox p.boundingBox ⟨0, 0, 1, none⟩ }) := rfl
  rw [h1]
  simp [updatePathEntry, c1_box_fix]

theorem c1_near :
    isPointNearPath ⟨0, 0, 0, none⟩
      ⟨"path-1", [⟨0, 0, 0, none⟩, ⟨0, 0, 1, none⟩], none, getDefaultStyle,
        ⟨0, 0, 0, 0⟩, 0⟩ 15 = true := by
  have hsd : segDistSq ⟨0, 0, 0, none⟩ ⟨0, 0, 0, none⟩ ⟨0, 0, 1, none⟩ = 0 := by
    norm_num [segDistSq]
  unfold isPointNearPath
  rw [if_neg (by norm_num)]
  rw [if_pos]
  simp [segPairs, distanceToLineSegment, hsd, Real.sqrt_zero]

theorem c1_find :
    c1State.store.findPathAtPoint ⟨0, 0, 0, none⟩ 15 = some "path-1" := by
  unfold PathManager.findPathAtPoint
  rw [c1_paths]
  simp [List.find?, c1_near]

theorem c1b_getPath :
    c1bState.store.getPath "path-1" =
      some { id := "path-1", points := [⟨0, 0, 0, none⟩],
             audioData := some (attachedAudio
               ⟨"path-1", [⟨0, 0, 0, none⟩], none, getDefaultStyle,
                 ⟨0, 0, 0, 0⟩, 0⟩ 0),
             style := getDefaultStyle, boundingBox := ⟨0, 0, 0, 0⟩,
             createdAt := 0 } := by
  have hid : (PathManager.empty.startRecording 0 0 ⟨0, 0, 0, none⟩).1 =
      "path-1" := rfl
  have hget0 := getPath_startRecording_self PathManager.empty 0 0 ⟨0, 0, 0, none⟩
  rw [hid] at hget0
  have hget1 := getPath_attachAudioData_self
    (PathManager.empty.startRecording 0 0 ⟨0, 0, 0, none⟩).2 "path-1" 0 _ hget0
  show (((PathManager.empty.startRecording 0 0 ⟨0, 0, 0, none⟩).2.attachAudioData
      "path-1" 0).endRecording "path-1").getPath "path-1" = _
  rw [getPath_endRecording, hget1]
  rfl

theorem c1b_near :
    isPointNearPath ⟨0, 0, 0, none⟩
      { id := "path-1", points := [⟨0, 0, 0, none⟩],
        audioData := some (attachedAudio
          ⟨"path-1", [⟨0, 0, 0, none⟩], none, getDefaultStyle,
            ⟨0, 0, 0, 0⟩, 0⟩ 0),
        style := getDefaultStyle, boundingBox := ⟨0, 0, 0, 0⟩,
        createdAt := 0 } 15 = true := by
  unfold isPointNearPath
  rw [if_neg (by norm_num)]
  rw [if_neg (by simp [segPairs])]
  norm_num [distanceToPoint, dist2, Real.sqrt_zero]

theorem c1b_find :
    c1bState.store.findPathAtPoint ⟨0, 0, 0, none⟩ 15 = some "path-1" := by
  have hpaths : c1bState.store.paths =
      [("path-1",
        { id := "path-1", points := [⟨0, 0, 0, none⟩],
          audioData := some (attachedAudio
            ⟨"path-1", [⟨0, 0, 0, none⟩], none, getDefaultStyle,
              ⟨0, 0, 0, 0⟩, 0⟩ 0),
          style := getDefaultStyle, boundingBox := ⟨0, 0, 0, 0⟩,
          createdAt := 0 })] := rfl
  unfold PathManager.findPathAtPoint
  rw [hpaths]
  simp [List.find?, c1b_near]

theorem c1b_near_eval :
    c1bState.store.findNearestPointOnPath 2 ⟨0, 0, 0, none⟩ "path-1" =
      some (⟨0, 0, 0, none⟩, 0) := by
  unfold PathManager.findNearestPointOnPath
  rw [c1b_getPath]
  norm_num [nearLoop]

/-- C1 counterexample, two parts. (a) After one complete record gesture with
the microphone denied, a second input-start at the same location hits
`path-1`, which has no audio data; the handler then does nothing at all — in
particular it does not enter Recording: no path is created, the store and the
whole coordinator state are unchanged, and no audio command is issued.
(b) An input-start that hits a path WITH audio data, on a state whose audio
engine is uninitialized and without permission and with the microphone
request denied, also does nothing — in particular it does not enter
Scrubbing, refuting the unconditional Scrubbing clause. -/
theorem hit_without_audio_no_recording_counterexample :
    (c1State.store.findPathAtPoint ⟨0, 0, 0, none⟩ 15 = some "path-1" ∧
      hasAudioData c1State.store "path-1" = false ∧
      c1Result = (c1State, []) ∧
      c1State.currentRecordingPath = none ∧
      c1State.store.pathCounter = 1) ∧
    (c1bState.store.findPathAtPoint ⟨0, 0, 0, none⟩ 15 = some "path-1" ∧
      hasAudioData c1bState.store "path-1" = true ∧
      c1bState.audio.isReady = false ∧
      c1bResult = (c1bState, []) ∧
      c1bState.activePlaybackPath = none) := by
  refine ⟨⟨c1_find, ?_, ?_, rfl, rfl⟩, c1b_find, ?_, rfl, ?_, rfl⟩
  · simp [hasAudioData, c1_getPath]
  · unfold c1Result
    unfold handleInputStart
    rw [show c1State.isAppReady = true from rfl]
    simp only [Bool.true_eq_false, if_false, c1_find]
    unfold handlePathPlayback
    simp [c1_getPath]
  · simp [hasAudioData, c1b_getPath]
  · unfold c1bResult
    unfold handleInputStart
    rw [show c1bState.isAppReady = true from rfl]
    simp only [Bool.true_eq_false, if_false, c1b_find]
    unfold handlePathPlayback
    simp only [c1b_getPath]
    rw [c1b_near_eval]
    rfl

/-! ## C7 -/

theorem distanceToPoint_eval (p q : Point) (v : ℚ) (r : ℝ)
    (hv : dist2 p q = v) (hr : 0 ≤ r) (hsq : ((v : ℚ) : ℝ) = r ^ 2) :
    distanceToPoint p q = r := by
  rw [distanceToPoint, hv, hsq, Real.sqrt_sq hr]

theorem c7_box1 : updateBoundingBox ⟨0, 0, 0, 0⟩ ⟨10, 0, 100, none⟩ =
    (⟨0, 0, 10, 0⟩ : Rectangle) := by
  norm_num [updateBoundingBox]

theorem c7_box2 : updateBoundingBox ⟨0, 0, 10, 0⟩ ⟨20, 0, 200, none⟩ =
    (⟨0, 0, 20, 0⟩ : Rectangle) := by
  norm_num [updateBoundingBox]

theorem c7_getPath :
    c7Store.getPath "path-1" =
      some ⟨"path-1", [⟨0, 0, 0, none⟩, ⟨10, 0, 100, none⟩, ⟨20, 0, 200, none⟩],
        none, getDefaultStyle, ⟨0, 0, 20, 0⟩, 0⟩ := by
  have hid : (PathManager.empty.startRecording 0 0 ⟨0, 0, 0, none⟩).1 =
      "path-1" := rfl
  have hget0 := getPath_startRecording_self PathManager.empty 0 0 ⟨0, 0, 0, none⟩
  rw [hid] at hget0
  have hget1 := getPath_addPoint_self
    (PathManager.empty.startRecording 0 0 ⟨0, 0, 0, none⟩).2 100 "path-1"
    ⟨10, 0, 0, none⟩ _ hget0
  have hget2 := getPath_addPoint_self
    ((PathManager.empty.startRecording 0 0 ⟨0, 0, 0, none⟩).2.addPoint 100
      "path-1" ⟨10, 0, 0, none⟩) 200 "path-1" ⟨20, 0, 0, none⟩ _ hget1
  show (((PathManager.empty.startRecording 0 0 ⟨0, 0, 0, none⟩).2.addPoint 100
      "path-1" ⟨10, 0, 0, none⟩).addPoint 200 "path-1"
      ⟨20, 0, 0, none⟩).getPath "path-1" = _
  rw [hget2]
  simp [createBoundingBox, c7_box1, c7_box2,
    show pathIdOf (PathManager.empty.pathCounter + 1) = "path-1" from rfl]

theorem c7_total :
    calculatePathLength
      [⟨0, 0, 0, none⟩, ⟨10, 0, 100, none⟩, ⟨20, 0, 200, none⟩] = 20 := by
  have d1 : distanceToPoint ⟨0, 0, 0, none⟩ ⟨10, 0, 100, none⟩ = 10 :=
    distanceToPoint_eval _ _ 100 10 (by norm_num [dist2]) (by norm_num)
      (by norm_num)
  have d2 : distanceToPoint ⟨10, 0, 100, none⟩ ⟨20, 0, 200, none⟩ = 10 :=
    distanceToPoint_eval _ _ 100 10 (by norm_num [dist2]) (by norm_num)
      (by norm_num)
  simp [calculatePathLength, segPairs, d1, d2]
  norm_num

theorem nearStep_update_eval (click p1 p2 : Point) (now : ℚ) (tot : ℝ)
    (st : NearState) (cl : Point) (d seg pts : ℝ)
    (hc : closestPointOnLineSegment now click p1 p2 = cl)
    (hd : distanceToPoint click cl = d)
    (hseg : distanceToPoint p1 p2 = seg)
    (hpts : distanceToPoint p1 cl = pts)
    (hlt : d < st.minDistance) (hsegpos : seg > 0) (htot : tot > 0) :
    nearStep click now tot p1 p2 st =
      ⟨cl, d, (st.accumulatedLength + pts / seg * seg) / tot,
       st.accumulatedLength + seg⟩ := by
  simp only [nearStep, hc, hd, hseg, hpts]
  rw [if_pos hlt, if_pos hsegpos, if_pos htot]

theorem nearStep_skip_eval (click p1 p2 : Point) (now : ℚ) (tot : ℝ)
    (st : NearState) (cl : Point) (d seg : ℝ)
    (hc : closestPointOnLineSegment now click p1 p2 = cl)
    (hd : distanceToPoint click cl = d)
    (hseg : distanceToPoint p1 p2 = seg)
    (hge : ¬ (d < st.minDistance)) :
    nearStep click now tot p1 p2 st =
      { st with accumulatedLength := st.accumulatedLength + seg } := by
  simp only [nearStep, hc, hd, hseg]
  rw [if_neg hge]

theorem c7_seg1 : distanceToPoint ⟨0, 0, 0, none⟩ ⟨10, 0, 100, none⟩ = 10 :=
  distanceToPoint_eval _ _ 100 10 (by norm_num [dist2]) (by norm_num)
    (by norm_num)

theorem c7_seg2 : distanceToPoint ⟨10, 0, 100, none⟩ ⟨20, 0, 200, none⟩ = 10 :=
  distanceToPoint_eval _ _ 100 10 (by norm_num [dist2]) (by norm_num)
    (by norm_num)

theorem c7_eval_end :
    c7Store.findNearestPointOnPath 999 ⟨20, 0, 0, none⟩ "path-1" =
      some (⟨20, 0, 999, none⟩, 1) := by
  have hd0 : distanceToPoint ⟨20, 0, 0, none⟩ ⟨0, 0, 0, none⟩ = 20 :=
    distanceToPoint_eval _ _ 400 20 (by norm_num [dist2]) (by norm_num)
      (by norm_num)
  have hstep1 : nearStep ⟨20, 0, 0, none⟩ 999 20 ⟨0, 0, 0, none⟩
      ⟨10, 0, 100, none⟩ ⟨⟨0, 0, 0, none⟩, 20, 0, 0⟩ =
      ⟨⟨10, 0, 999, none⟩, 10, 1/2, 10⟩ := by
    rw [nearStep_update_eval _ _ _ _ _ _ ⟨10, 0, 999, none⟩ 10 10 10
      (by norm_num [closestPointOnLineSegment])
      (distanceToPoint_eval _ _ 100 10 (by norm_num [dist2]) (by norm_num)
        (by norm_num))
      c7_seg1
      (distanceToPoint_eval _ _ 100 10 (by norm_num [dist2]) (by norm_num)
        (by norm_num))
      (by norm_num) (by norm_num) (by norm_num)]
    norm_num
  have hstep2 : nearStep ⟨20, 0, 0, none⟩ 999 20 ⟨10, 0, 100, none⟩
      ⟨20, 0, 200, none⟩ ⟨⟨10, 0, 999, none⟩, 10, 1/2, 10⟩ =
      ⟨⟨20, 0, 999, none⟩, 0, 1, 20⟩ := by
    rw [nearStep_update_eval _ _ _ _ _ _ ⟨20, 0, 999, none⟩ 0 10 10
      (by norm_num [closestPointOnLineSegment])
      (distanceToPoint_eval _ _ 0 0 (by norm_num [dist2]) (by norm_num)
        (by norm_num))
      c7_seg2
      (distanceToPoint_eval _ _ 100 10 (by norm_num [dist2]) (by norm_num)
        (by norm_num))
      (by norm_num) (by norm_num) (by norm_num)]
    norm_num
  unfold PathManager.findNearestPointOnPath
  simp only [c7_getPath, c7_total, hd0]
  rw [show nearLoop ⟨20, 0, 0, none⟩ 999 20 ⟨0, 0, 0, none⟩
      [⟨10, 0, 100, none⟩, ⟨20, 0, 200, none⟩] ⟨⟨0, 0, 0, none⟩, 20, 0, 0⟩ =
      nearStep ⟨20, 0, 0, none⟩ 999 20 ⟨10, 0, 100, none⟩ ⟨20, 0, 200, none⟩
        (nearStep ⟨20, 0, 0, none⟩ 999 20 ⟨0, 0, 0, none⟩ ⟨10, 0, 100, none⟩
          ⟨⟨0, 0, 0, none⟩, 20, 0, 0⟩) from rfl]
  rw [hstep1, hstep2]
  norm_num

theorem c7_eval_start :
    c7Store.findNearestPointOnPath 999 ⟨0, 0, 0, none⟩ "path-1" =
      some (⟨0, 0, 0, none⟩, 0) := by
  have hd0 : distanceToPoint ⟨0, 0, 0, none⟩ ⟨0, 0, 0, none⟩ = 0 :=
    distanceToPoint_eval _ _ 0 0 (by norm_num [dist2]) (by norm_num)
      (by norm_num)
  have hstep1 : nearStep ⟨0, 0, 0, none⟩ 999 20 ⟨0, 0, 0, none⟩
      ⟨10, 0, 100, none⟩ ⟨⟨0, 0, 0, none⟩, 0, 0, 0⟩ =
      ⟨⟨0, 0, 0, none⟩, 0, 0, 10⟩ := by
    rw [nearStep_skip_eval _ _ _ _ _ _ ⟨0, 0, 999, none⟩ 0 10
      (by norm_num [closestPointOnLineSegment])
      (distanceToPoint_eval _ _ 0 0 (by norm_num [dist2]) (by norm_num)
        (by norm_num))
      c7_seg1
      (by norm_num)]
    norm_num
  have hstep2 : nearStep ⟨0, 0, 0, none⟩ 999 20 ⟨10, 0, 100, none⟩
      ⟨20, 0, 200, none⟩ ⟨⟨0, 0, 0, none⟩, 0, 0, 10⟩ =
      ⟨⟨0, 0, 0, none⟩, 0, 0, 20⟩ := by
    rw [nearStep_skip_eval _ _ _ _ _ _ ⟨10, 0, 999, none⟩ 10 10
      (by norm_num [closestPointOnLineSegment])
      (distanceToPoint_eval _ _ 100 10 (by norm_num [dist2]) (by norm_num)
        (by norm_num))
      c7_seg2
      (by norm_num)]
    norm_num
  unfold PathManager.findNearestPointOnPath
  simp only [c7_getPath, c7_total, hd0]
  rw [show nearLoop ⟨0, 0, 0, none⟩ 999 20 ⟨0, 0, 0, none⟩
      [⟨10, 0, 100, none⟩, ⟨20, 0, 200, none⟩] ⟨⟨0, 0, 0, none⟩, 0, 0, 0⟩ =
      nearStep ⟨0, 0, 0, none⟩ 999 20 ⟨10, 0, 100, none⟩ ⟨20, 0, 200, none⟩
        (nearStep ⟨0, 0, 0, none⟩ 999 20 ⟨0, 0, 0, none⟩ ⟨10, 0, 100, none⟩
          ⟨⟨0, 0, 0, none⟩, 0, 0, 0⟩) from rfl]
  rw [hstep1, hstep2]
  norm_num

theorem c7_eval_mid :
    c7Store.findNearestPointOnPath 999 ⟨10, 0, 0, none⟩ "path-1" =
      some (⟨10, 0, 999, none⟩, 1/2) := by
  have hd0 : distanceToPoint ⟨10, 0, 0, none⟩ ⟨0, 0, 0, none⟩ = 10 :=
    distanceToPoint_eval _ _ 100 10 (by norm_num [dist2]) (by norm_num)
      (by norm_num)
  have hstep1 : nearStep ⟨10, 0, 0, none⟩ 999 20 ⟨0, 0, 0, none⟩
      ⟨10, 0, 100, none⟩ ⟨⟨0, 0, 0, none⟩, 10, 0, 0⟩ =
      ⟨⟨10, 0, 999, none⟩, 0, 1/2, 10⟩ := by
    rw [nearStep_update_eval _ _ _ _ _ _ ⟨10, 0, 999, none⟩ 0 10 10
      (by norm_num [closestPointOnLineSegment])
      (distanceToPoint_eval _ _ 0 0 (by norm_num [dist2]) (by norm_num)
        (by norm_num))
      c7_seg1
      (distanceToPoint_eval _ _ 100 10 (by norm_num [dist2]) (by norm_num)
        (by norm_num))
      (by norm_num) (by norm_num) (by norm_num)]
    norm_num
  have hstep2 : nearStep ⟨10, 0, 0, none⟩ 999 20 ⟨10, 0, 100, none⟩
      ⟨20, 0, 200, none⟩ ⟨⟨10, 0, 999, none⟩, 0, 1/2, 10⟩ =
      ⟨⟨10, 0, 999, none⟩, 0, 1/2, 20⟩ := by
    rw [nearStep_skip_eval _ _ _ _ _ _ ⟨10, 0, 999, none⟩ 0 10
      (by norm_num [closestPointOnLineSegment])
      (distanceToPoint_eval _ _ 0 0 (by norm_num [dist2]) (by norm_num)
        (by norm_num))
      c7_seg2
      (by norm_num)]
    norm_num
  unfold PathManager.findNearestPointOnPath
  simp only [c7_getPath, c7_total, hd0]
  rw [show nearLoop ⟨10, 0, 0, none⟩ 999 20 ⟨0, 0, 0, none⟩
      [⟨10, 0, 100, none⟩, ⟨20, 0, 200, none⟩] ⟨⟨0, 0, 0, none⟩, 10, 0, 0⟩ =
      nearStep ⟨10, 0, 0, none⟩ 999 20 ⟨10, 0, 100, none⟩ ⟨20, 0, 200, none⟩
        (nearStep ⟨10, 0, 0, none⟩ 999 20 ⟨0, 0, 0, none⟩ ⟨10, 0, 100, none⟩
          ⟨⟨0, 0, 0, none⟩, 10, 0, 0⟩) from rfl]
  rw [hstep1, hstep2]
  norm_num

/-- C7: for the three-point horizontal path (0,0), (10,0), (20,0),
`findNearestPointOnPath` returns progress 1 at (20,0), progress 0 at (0,0)
and progress 1/2 at (10,0) (exact values, hence within any tolerance). -/
theorem findNearest_simple_scenario :
    c7Store.findNearestPointOnPath 999 ⟨20, 0, 0, none⟩ "path-1" =
      some (⟨20, 0, 999, none⟩, 1) ∧
    c7Store.findNearestPointOnPath 999 ⟨0, 0, 0, none⟩ "path-1" =
      some (⟨0, 0, 0, none⟩, 0) ∧
    c7Store.findNearestPointOnPath 999 ⟨10, 0, 0, none⟩ "path-1" =
      some (⟨10, 0, 999, none⟩, 1/2) :=
  ⟨c7_eval_end, c7_eval_start, c7_eval_mid⟩

/-! ## C8: geometry of collinear paths -/

theorem one_add_sq_pos (mm : ℚ) : 0 < 1 + mm ^ 2 := by positivity

theorem sqrtL_pos (mm : ℚ) : 0 < Real.sqrt ((1 + mm ^ 2 : ℚ) : ℝ) :=
  Real.sqrt_pos.mpr (by exact_mod_cast one_add_sq_pos mm)

theorem dist2_nonneg (p q : Point) : 0 ≤ dist2 p q := by
  unfold dist2
  have h1 := mul_self_nonneg (p.x - q.x)
  have h2 := mul_self_nonneg (p.y - q.y)
  linarith

theorem sigmaLine_mono (mm cc : ℚ) (q1 q2 : Point) (hy : q1.y = q2.y)
    (hx : q1.x ≤ q2.x) : sigmaLine mm cc q1 ≤ sigmaLine mm cc q2 := by
  unfold sigmaLine
  rw [hy]
  have hpos := one_add_sq_pos mm
  gcongr

theorem dist2_line_decomp (mm cc : ℚ) (q p : Point)
    (hp : p.y = mm * p.x + cc) :
    dist2 q p =
      dist2 q ⟨sigmaLine mm cc q, mm * sigmaLine mm cc q + cc, 0, none⟩
        + (1 + mm ^ 2) * (p.x - sigmaLine mm cc q) ^ 2 := by
  unfold dist2 sigmaLine
  rw [hp]
  have hpos : (1 + mm ^ 2) ≠ 0 := ne_of_gt (one_add_sq_pos mm)
  dsimp only
  field_simp
  ring

theorem dist_lt_dist_iff_line (mm cc : ℚ) (q p r : Point)
    (hp : p.y = mm * p.x + cc) (hr : r.y = mm * r.x + cc) :
    distanceToPoint q p < distanceToPoint q r ↔
      (p.x - sigmaLine mm cc q) ^ 2 < (r.x - sigmaLine mm cc q) ^ 2 := by
  unfold distanceToPoint
  rw [Real.sqrt_lt_sqrt_iff (by exact_mod_cast dist2_nonneg q p)]
  rw [show (((dist2 q p : ℚ) : ℝ) < ((dist2 q r : ℚ) : ℝ)) ↔
      dist2 q p < dist2 q r from by exact_mod_cast Iff.rfl]
  rw [dist2_line_decomp mm cc q p hp, dist2_line_decomp mm cc q r hr]
  rw [add_lt_add_iff_left, mul_lt_mul_left (one_add_sq_pos mm)]

theorem dist_line_points (mm cc : ℚ) (p r : Point)
    (hp : p.y = mm * p.x + cc) (hr : r.y = mm * r.x + cc) (hle : p.x ≤ r.x) :
    distanceToPoint p r =
      ((r.x - p.x : ℚ) : ℝ) * Real.sqrt ((1 + mm ^ 2 : ℚ) : ℝ) := by
  unfold distanceToPoint
  have h2 : dist2 p r = (r.x - p.x) ^ 2 * (1 + mm ^ 2) := by
    unfold dist2
    rw [hp, hr]
    ring
  rw [h2]
  push_cast
  rw [Real.sqrt_mul (by positivity)]
  rw [Real.sqrt_sq (by exact_mod_cast sub_nonneg.mpr hle)]

theorem clampQ_self (a t : ℚ) : clampQ a a t = a := by
  unfold clampQ
  split_ifs <;> linarith

theorem clampQ_mono (a b t1 t2 : ℚ) (hab : a ≤ b) (h : t1 ≤ t2) :
    clampQ a b t1 ≤ clampQ a b t2 := by
  unfold clampQ
  split_ifs <;> linarith

theorem clampQ_mem (a b t : ℚ) (hab : a ≤ b) :
    a ≤ clampQ a b t ∧ clampQ a b t ≤ b := by
  unfold clampQ
  split_ifs <;> constructor <;> linarith

theorem clampQ_lo (a b t : ℚ) (hab : a ≤ b) (h : t ≤ a) : clampQ a b t = a := by
  unfold clampQ
  split_ifs <;> linarith

theorem clampQ_hi (a b t : ℚ) (h : b < t) (hab : a ≤ b) : clampQ a b t = b := by
  unfold clampQ
  split_ifs <;> linarith

theorem clampQ_ge_t (a b t : ℚ) (h : t ≤ b) : t ≤ clampQ a b t := by
  unfold clampQ
  split_ifs <;> linarith

theorem clampQ_le_t (a b t : ℚ) (h : a < t) : clampQ a b t ≤ t := by
  unfold clampQ
  split_ifs <;> linarith

theorem clampQ_gt_lo (a b t : ℚ) (ha : a < t) (hb : a < b) :
    a < clampQ a b t := by
  unfold clampQ
  split_ifs <;> linarith

theorem clampQ_extend_lo (x0 x1 x2 t : ℚ) (h01 : x0 ≤ x1) (h12 : x1 ≤ x2)
    (ht : t ≤ x1) : clampQ x0 x2 t = clampQ x0 x1 t := by
  unfold clampQ
  split_ifs <;> linarith

theorem clampQ_extend_hi (x0 x1 x2 t : ℚ) (h01 : x0 ≤ x1) (ht : x1 < t) :
    clampQ x0 x2 t = clampQ x1 x2 t := by
  unfold clampQ
  split_ifs <;> linarith

theorem closest_line (mm cc now : ℚ) (q p1 p2 : Point)
    (h1 : p1.y = mm * p1.x + cc) (h2 : p2.y = mm * p2.x + cc)
    (hx : p1.x < p2.x) :
    closestPointOnLineSegment now q p1 p2 =
      ⟨clampQ p1.x p2.x (sigmaLine mm cc q),
       mm * clampQ p1.x p2.x (sigmaLine mm cc q) + cc, now, none⟩ := by
  have hd : (0:ℚ) < p2.x - p1.x := by linarith
  have hmm := one_add_sq_pos mm
  have hlen : (p2.x - p1.x) * (p2.x - p1.x) + (p2.y - p1.y) * (p2.y - p1.y) =
      (p2.x - p1.x) ^ 2 * (1 + mm ^ 2) := by
    rw [h1, h2]
    ring
  have hlenpos : (0:ℚ) <
      (p2.x - p1.x) * (p2.x - p1.x) + (p2.y - p1.y) * (p2.y - p1.y) := by
    rw [hlen]
    positivity
  have hparam :
      ((q.x - p1.x) * (p2.x - p1.x) + (q.y - p1.y) * (p2.y - p1.y)) /
        ((p2.x - p1.x) * (p2.x - p1.x) + (p2.y - p1.y) * (p2.y - p1.y)) =
      (sigmaLine mm cc q - p1.x) / (p2.x - p1.x) := by
    rw [hlen, h1, h2]
    unfold sigmaLine
    rw [div_eq_div_iff (by positivity) (ne_of_gt hd)]
    field_simp
    ring
  simp only [closestPointOnLineSegment]
  rw [if_neg (ne_of_gt hlenpos), hparam]
  by_cases hs1 : sigmaLine mm cc q < p1.x
  · rw [if_pos (by rw [div_lt_iff hd]; simpa using sub_neg.mpr hs1)]
    rw [clampQ_lo _ _ _ (le_of_lt hx) (le_of_lt hs1)]
    rw [Point.mk.injEq]
    refine ⟨by ring, ?_, rfl, rfl⟩
    rw [h1]
    ring
  · rw [if_neg (by rw [div_lt_iff hd]; simpa using not_lt.mpr (sub_nonneg.mpr (not_lt.mp hs1)))]
    by_cases hs2 : sigmaLine mm cc q > p2.x
    · rw [if_pos (by rw [gt_iff_lt, lt_div_iff hd]; linarith)]
      rw [clampQ_hi _ _ _ hs2 (le_of_lt hx)]
      rw [Point.mk.injEq]
      refine ⟨by ring, ?_, rfl, rfl⟩
      rw [h1, h2]
      ring
    · rw [if_neg (by rw [gt_iff_lt, lt_div_iff hd]; intro hc; apply hs2; linarith)]
      have hcl : clampQ p1.x p2.x (sigmaLine mm cc q) = sigmaLine mm cc q := by
        unfold clampQ
        rw [if_neg hs1, if_neg hs2]
      rw [hcl, Point.mk.injEq]
      refine ⟨?_, ?_, rfl, rfl⟩
      · field_simp
      · rw [h1, h2]
        field_simp
        ring

theorem foldl_add_dist_shift (l : List (Point × Point)) :
    ∀ acc : ℝ, l.foldl (fun a pq => a + distanceToPoint pq.1 pq.2) acc =
      acc + l.foldl (fun a pq => a + distanceToPoint pq.1 pq.2) 0 := by
  induction l with
  | nil => intro acc; simp
  | cons pq t ih =>
    intro acc
    simp only [List.foldl_cons]
    rw [ih (acc + distanceToPoint pq.1 pq.2),
        ih (0 + distanceToPoint pq.1 pq.2)]
    ring

theorem segPairs_cons (p1 p2 : Point) (rest : List Point) :
    segPairs (p1 :: p2 :: rest) = (p1, p2) :: segPairs (p2 :: rest) := by
  simp [segPairs]

theorem calculatePathLength_cons (p1 p2 : Point) (rest : List Point) :
    calculatePathLength (p1 :: p2 :: rest) =
      distanceToPoint p1 p2 + calculatePathLength (p2 :: rest) := by
  unfold calculatePathLength
  rw [segPairs_cons]
  simp only [List.foldl_cons]
  rw [foldl_add_dist_shift]
  ring

theorem chain_le_getLastD : ∀ (rest : List Point) (p1 : Point),
    List.Chain' (fun a b : Point => a.x < b.x) (p1 :: rest) →
    p1.x ≤ (rest.getLastD p1).x := by
  intro rest
  induction rest with
  | nil => intro p1 _; simp [List.getLastD]
  | cons p2 t ih =>
    intro p1 h
    rw [List.getLastD_cons]
    have h12 := (List.chain'_cons.mp h).1
    have h2 := ih p2 (List.chain'_cons.mp h).2
    linarith

theorem chain_head_lt_last (rest : List Point) (p1 p2 : Point)
    (h : List.Chain' (fun a b : Point => a.x < b.x) (p1 :: p2 :: rest)) :
    p1.x < ((p2 :: rest).getLastD p1).x := by
  rw [List.getLastD_cons]
  have h12 := (List.chain'_cons.mp h).1
  have h2 := chain_le_getLastD rest p2 (List.chain'_cons.mp h).2
  linarith

theorem calcLen_line (mm cc : ℚ) :
    ∀ (rest : List Point) (p1 : Point),
      p1.y = mm * p1.x + cc →
      (∀ p ∈ rest, p.y = mm * p.x + cc) →
      List.Chain' (fun a b : Point => a.x < b.x) (p1 :: rest) →
      calculatePathLength (p1 :: rest) =
        (((rest.getLastD p1).x - p1.x : ℚ) : ℝ) *
          Real.sqrt ((1 + mm ^ 2 : ℚ) : ℝ) := by
  intro rest
  induction rest with
  | nil =>
    intro p1 _ _ _
    rw [calculatePathLength_single]
    simp [List.getLastD]
  | cons p2 rest ih =>
    intro p1 h1 hline hchain
    have hx : p1.x < p2.x := (List.chain'_cons.mp hchain).1
    have h2 : p2.y = mm * p2.x + cc := hline p2 (by simp)
    rw [calculatePathLength_cons,
        ih p2 h2 (fun p hp => hline p (by simp [hp]))
          (List.chain'_cons.mp hchain).2,
        dist_line_points mm cc p1 p2 h1 h2 (le_of_lt hx),
        List.getLastD_cons]
    push_cast
    ring

theorem nearStep_line (mm cc now : ℚ) (q : Point) (tot : ℝ) (x0 : ℚ)
    (p1 p2 : Point) (st : NearState)
    (h1 : p1.y = mm * p1.x + cc) (h2 : p2.y = mm * p2.x + cc)
    (hx : p1.x < p2.x) (hx0 : x0 ≤ p1.x) (htot : tot > 0)
    (inv1 : st.nearestPoint.x = clampQ x0 p1.x (sigmaLine mm cc q))
    (inv2 : st.nearestPoint.y = mm * st.nearestPoint.x + cc)
    (inv3 : st.minDistance = distanceToPoint q st.nearestPoint)
    (inv4 : st.accumulatedLength =
      ((p1.x - x0 : ℚ) : ℝ) * Real.sqrt ((1 + mm ^ 2 : ℚ) : ℝ))
    (inv5 : st.nearestProgress =
      ((clampQ x0 p1.x (sigmaLine mm cc q) - x0 : ℚ) : ℝ) *
        Real.sqrt ((1 + mm ^ 2 : ℚ) : ℝ) / tot) :
    (nearStep q now tot p1 p2 st).nearestPoint.x =
        clampQ x0 p2.x (sigmaLine mm cc q) ∧
    (nearStep q now tot p1 p2 st).nearestPoint.y =
        mm * (nearStep q now tot p1 p2 st).nearestPoint.x + cc ∧
    (nearStep q now tot p1 p2 st).minDistance =
        distanceToPoint q (nearStep q now tot p1 p2 st).nearestPoint ∧
    (nearStep q now tot p1 p2 st).accumulatedLength =
        ((p2.x - x0 : ℚ) : ℝ) * Real.sqrt ((1 + mm ^ 2 : ℚ) : ℝ) ∧
    (nearStep q now tot p1 p2 st).nearestProgress =
        ((clampQ x0 p2.x (sigmaLine mm cc q) - x0 : ℚ) : ℝ) *
          Real.sqrt ((1 + mm ^ 2 : ℚ) : ℝ) / tot := by
  have hcl := closest_line mm cc now q p1 p2 h1 h2 hx
  have hclx : (closestPointOnLineSegment now q p1 p2).x =
      clampQ p1.x p2.x (sigmaLine mm cc q) := by rw [hcl]
  have hcly : (closestPointOnLineSegment now q p1 p2).y =
      mm * (closestPointOnLineSegment now q p1 p2).x + cc := by rw [hcl]
  by_cases hcase : sigmaLine mm cc q ≤ p1.x
  · have hc12 : clampQ p1.x p2.x (sigmaLine mm cc q) = p1.x :=
      clampQ_lo _ _ _ (le_of_lt hx) hcase
    have hnp_le : st.nearestPoint.x ≤ p1.x := by
      rw [inv1]
      exact (clampQ_mem x0 p1.x _ hx0).2
    have hnp_ge : sigmaLine mm cc q ≤ st.nearestPoint.x := by
      rw [inv1]
      exact clampQ_ge_t _ _ _ hcase
    have hnotlt : ¬ (distanceToPoint q (closestPointOnLineSegment now q p1 p2)
        < st.minDistance) := by
      rw [inv3, dist_lt_dist_iff_line mm cc q _ _ hcly inv2, hclx, hc12]
      intro hlt
      nlinarith
    have hstep := nearStep_skip_eval q p1 p2 now tot st _ _ _ rfl rfl rfl hnotlt
    rw [hstep]
    have hext : clampQ x0 p2.x (sigmaLine mm cc q) =
        clampQ x0 p1.x (sigmaLine mm cc q) :=
      clampQ_extend_lo x0 p1.x p2.x _ hx0 (le_of_lt hx) hcase
    refine ⟨?_, ?_, ?_, ?_, ?_⟩
    · show st.nearestPoint.x = _
      rw [inv1, hext]
    · exact inv2
    · exact inv3
    · show st.accumulatedLength + distanceToPoint p1 p2 = _
      rw [inv4, dist_line_points mm cc p1 p2 h1 h2 (le_of_lt hx)]
      push_cast
      ring
    · show st.nearestProgress = _
      rw [inv5, hext]
  · push_neg at hcase
    have hc01 : clampQ x0 p1.x (sigmaLine mm cc q) = p1.x :=
      clampQ_hi x0 p1.x _ hcase hx0
    have hgt : p1.x < clampQ p1.x p2.x (sigmaLine mm cc q) :=
      clampQ_gt_lo _ _ _ hcase hx
    have hle_s : clampQ p1.x p2.x (sigmaLine mm cc q) ≤ sigmaLine mm cc q :=
      clampQ_le_t _ _ _ hcase
    have hlt : distanceToPoint q (closestPointOnLineSegment now q p1 p2)
        < st.minDistance := by
      rw [inv3, dist_lt_dist_iff_line mm cc q _ _ hcly inv2, hclx, inv1, hc01]
      nlinarith
    have hsegpos : distanceToPoint p1 p2 > 0 := by
      rw [dist_line_points mm cc p1 p2 h1 h2 (le_of_lt hx)]
      exact mul_pos (by exact_mod_cast sub_pos.mpr hx) (sqrtL_pos mm)
    have hstep := nearStep_update_eval q p1 p2 now tot st _ _ _ _ rfl rfl rfl
      rfl hlt hsegpos htot
    rw [hstep]
    have hext : clampQ x0 p2.x (sigmaLine mm cc q) =
        clampQ p1.x p2.x (sigmaLine mm cc q) :=
      clampQ_extend_hi x0 p1.x p2.x _ hx0 hcase
    have hpts : distanceToPoint p1 (closestPointOnLineSegment now q p1 p2) =
        ((clampQ p1.x p2.x (sigmaLine mm cc q) - p1.x : ℚ) : ℝ) *
          Real.sqrt ((1 + mm ^ 2 : ℚ) : ℝ) := by
      have honline : (closestPointOnLineSegment now q p1 p2).y =
          mm * (closestPointOnLineSegment now q p1 p2).x + cc := hcly
      have hple : p1.x ≤ (closestPointOnLineSegment now q p1 p2).x := by
        rw [hclx]
        exact le_of_lt hgt
      rw [dist_line_points mm cc p1 _ h1 honline hple, hclx]
    refine ⟨?_, ?_, ?_, ?_, ?_⟩
    · show (closestPointOnLineSegment now q p1 p2).x = _
      rw [hclx, hext]
    · exact hcly
    · rfl
    · show st.accumulatedLength + distanceToPoint p1 p2 = _
      rw [inv4, dist_line_points mm cc p1 p2 h1 h2 (le_of_lt hx)]
      push_cast
      ring
    · show (st.accumulatedLength +
          distanceToPoint p1 (closestPointOnLineSegment now q p1 p2) /
            distanceToPoint p1 p2 * distanceToPoint p1 p2) / tot = _
      rw [div_mul_cancel₀ _ (ne_of_gt hsegpos), hpts, inv4, hext]
      push_cast
      ring_nf

theorem nearLoop_line (mm cc now : ℚ) (q : Point) (tot : ℝ) (x0 : ℚ) :
    ∀ (rest : List Point) (p1 : Point) (st : NearState),
      p1.y = mm * p1.x + cc →
      (∀ p ∈ rest, p.y = mm * p.x + cc) →
      List.Chain' (fun a b : Point => a.x < b.x) (p1 :: rest) →
      x0 ≤ p1.x → tot > 0 →
      st.nearestPoint.x = clampQ x0 p1.x (sigmaLine mm cc q) →
      st.nearestPoint.y = mm * st.nearestPoint.x + cc →
      st.minDistance = distanceToPoint q st.nearestPoint →
      st.accumulatedLength =
        ((p1.x - x0 : ℚ) : ℝ) * Real.sqrt ((1 + mm ^ 2 : ℚ) : ℝ) →
      st.nearestProgress =
        ((clampQ x0 p1.x (sigmaLine mm cc q) - x0 : ℚ) : ℝ) *
          Real.sqrt ((1 + mm ^ 2 : ℚ) : ℝ) / tot →
      (nearLoop q now tot p1 rest st).nearestProgress =
        ((clampQ x0 (rest.getLastD p1).x (sigmaLine mm cc q) - x0 : ℚ) : ℝ) *
          Real.sqrt ((1 + mm ^ 2 : ℚ) : ℝ) / tot := by
  intro rest
  induction rest with
  | nil =>
    intro p1 st _ _ _ _ _ _ _ _ _ i5
    simpa [List.getLastD] using i5
  | cons p2 rest ih =>
    intro p1 st h1 hline hchain hx0 htot i1 i2 i3 i4 i5
    have hx : p1.x < p2.x := (List.chain'_cons.mp hchain).1
    have h2 := hline p2 (by simp)
    have hstep := nearStep_line mm cc now q tot x0 p1 p2 st h1 h2 hx hx0 htot
      i1 i2 i3 i4 i5
    show (nearLoop q now tot p2 rest
      (nearStep q now tot p1 p2 st)).nearestProgress = _
    rw [List.getLastD_cons]
    exact ih p2 (nearStep q now tot p1 p2 st) h2
      (fun p hp => hline p (by simp [hp]))
      (List.chain'_cons.mp hchain).2
      (le_of_lt (lt_of_le_of_lt hx0 hx)) htot
      hstep.1 hstep.2.1 hstep.2.2.1 hstep.2.2.2.1 hstep.2.2.2.2

theorem pointsProgress_line (mm cc now : ℚ) (q : Point) (p0 : Point)
    (rest : List Point)
    (h0 : p0.y = mm * p0.x + cc)
    (hline : ∀ p ∈ rest, p.y = mm * p.x + cc)
    (hchain : List.Chain' (fun a b : Point => a.x < b.x) (p0 :: rest)) :
    pointsProgress now q p0 rest =
      max 0 (min 1
        (((clampQ p0.x (rest.getLastD p0).x (sigmaLine mm cc q) - p0.x : ℚ) : ℝ)
          * Real.sqrt ((1 + mm ^ 2 : ℚ) : ℝ) /
            calculatePathLength (p0 :: rest))) := by
  cases rest with
  | nil =>
    unfold pointsProgress
    show max 0 (min 1 (0:ℝ)) = _
    rw [show ([] : List Point).getLastD p0 = p0 from rfl, clampQ_self]
    norm_num
  | cons p2 rest' =>
    unfold pointsProgress
    have htotpos : calculatePathLength (p0 :: p2 :: rest') > 0 := by
      rw [calcLen_line mm cc (p2 :: rest') p0 h0 hline hchain]
      refine mul_pos ?_ (sqrtL_pos mm)
      have := chain_head_lt_last rest' p0 p2 hchain
      exact_mod_cast sub_pos.mpr this
    rw [nearLoop_line mm cc now q _ p0.x (p2 :: rest') p0 _ h0 hline hchain
      le_rfl htotpos (by rw [clampQ_self]) h0 rfl (by push_cast; ring)
      (by rw [clampQ_self]; push_cast; ring_nf)]

theorem pointsProgress_mono_x (mm cc now : ℚ) (p0 : Point) (rest : List Point)
    (h0 : p0.y = mm * p0.x + cc)
    (hline : ∀ p ∈ rest, p.y = mm * p.x + cc)
    (hchain : List.Chain' (fun a b : Point => a.x < b.x) (p0 :: rest))
    (q1 q2 : Point) (hy : q1.y = q2.y) (hx : q1.x ≤ q2.x) :
    pointsProgress now q1 p0 rest ≤ pointsProgress now q2 p0 rest := by
  rw [pointsProgress_line mm cc now q1 p0 rest h0 hline hchain,
      pointsProgress_line mm cc now q2 p0 rest h0 hline hchain]
  have hs := sigmaLine_mono mm cc q1 q2 hy hx
  have hab : p0.x ≤ (rest.getLastD p0).x := chain_le_getLastD rest p0 hchain
  have hcl := clampQ_mono p0.x (rest.getLastD p0).x _ _ hab hs
  rcases eq_or_lt_of_le (calculatePathLength_nonneg (p0 :: rest)) with hlen | hlen
  · rw [← hlen]
    simp
  · have hA : ((clampQ p0.x (rest.getLastD p0).x (sigmaLine mm cc q1)
        - p0.x : ℚ) : ℝ) * Real.sqrt ((1 + mm ^ 2 : ℚ) : ℝ) /
          calculatePathLength (p0 :: rest) ≤
        ((clampQ p0.x (rest.getLastD p0).x (sigmaLine mm cc q2)
        - p0.x : ℚ) : ℝ) * Real.sqrt ((1 + mm ^ 2 : ℚ) : ℝ) /
          calculatePathLength (p0 :: rest) := by
      rw [div_le_div_iff_of_pos_right hlen]
      apply mul_le_mul_of_nonneg_right ?_ (Real.sqrt_nonneg _)
      exact_mod_cast sub_le_sub_right hcl p0.x
    exact max_le_max le_rfl (min_le_min le_rfl hA)

theorem dist2_swap (p q : Point) :
    dist2 (swapPoint p) (swapPoint q) = dist2 p q := by
  unfold dist2 swapPoint
  dsimp only
  ring

theorem distanceToPoint_swap (p q : Point) :
    distanceToPoint (swapPoint p) (swapPoint q) = distanceToPoint p q := by
  unfold distanceToPoint
  rw [dist2_swap]

theorem closest_swap (now : ℚ) (q a b : Point) :
    closestPointOnLineSegment now (swapPoint q) (swapPoint a) (swapPoint b) =
      swapPoint (closestPointOnLineSegment now q a b) := by
  simp only [closestPointOnLineSegment, swapPoint]
  by_cases h : (b.x - a.x) * (b.x - a.x) + (b.y - a.y) * (b.y - a.y) = 0
  · rw [if_pos (by linear_combination h), if_pos h]
  · rw [if_neg (fun hc => h (by linear_combination hc)), if_neg h]
    have hd : (q.y - a.y) * (b.y - a.y) + (q.x - a.x) * (b.x - a.x)
        = (q.x - a.x) * (b.x - a.x) + (q.y - a.y) * (b.y - a.y) := by ring
    have hl : (b.y - a.y) * (b.y - a.y) + (b.x - a.x) * (b.x - a.x)
        = (b.x - a.x) * (b.x - a.x) + (b.y - a.y) * (b.y - a.y) := by ring
    rw [hd, hl]

theorem nearStep_swap (q : Point) (now : ℚ) (tot : ℝ) (p1 p2 : Point)
    (st : NearState) :
    nearStep (swapPoint q) now tot (swapPoint p1) (swapPoint p2) (swapNS st) =
      swapNS (nearStep q now tot p1 p2 st) := by
  simp only [nearStep, swapNS, closest_swap, distanceToPoint_swap]
  split_ifs <;> rfl

theorem nearLoop_swap (q : Point) (now : ℚ) (tot : ℝ) (rest : List Point) :
    ∀ (p1 : Point) (st : NearState),
      nearLoop (swapPoint q) now tot (swapPoint p1) (rest.map swapPoint)
          (swapNS st) =
        swapNS (nearLoop q now tot p1 rest st) := by
  induction rest with
  | nil => intro p1 st; rfl
  | cons p2 r ih =>
      intro p1 st
      simp only [List.map_cons, nearLoop]
      rw [nearStep_swap]
      exact ih p2 _

theorem calcLen_swap (pts : List Point) :
    calculatePathLength (pts.map swapPoint) = calculatePathLength pts := by
  induction pts with
  | nil => rfl
  | cons p0 rest ih =>
      cases rest with
      | nil => rfl
      | cons p1 r =>
          simp only [List.map_cons] at ih ⊢
          rw [calculatePathLength_cons, calculatePathLength_cons,
            distanceToPoint_swap, ih]

theorem pointsProgress_swap (now : ℚ) (q p0 : Point) (rest : List Point) :
    pointsProgress now (swapPoint q) (swapPoint p0) (rest.map swapPoint) =
      pointsProgress now q p0 rest := by
  unfold pointsProgress
  have hinit : (⟨swapPoint p0, distanceToPoint (swapPoint q) (swapPoint p0),
      0, 0⟩ : NearState) = swapNS ⟨p0, distanceToPoint q p0, 0, 0⟩ := by
    rw [distanceToPoint_swap]; rfl
  have hlen : (swapPoint p0 :: rest.map swapPoint) = (p0 :: rest).map swapPoint :=
    rfl
  rw [hinit, hlen, calcLen_swap, nearLoop_swap]
  rfl

theorem findNearest_none_of_nil (m : PathManager) (pathId : String)
    (path : AudioPath) (now : ℚ) (q : Point)
    (hget : m.getPath pathId = some path) (hnil : path.points = []) :
    m.findNearestPointOnPath now q pathId = none := by
  unfold PathManager.findNearestPointOnPath
  rw [hget]
  dsimp only
  rw [hnil]

theorem findNearest_progress (m : PathManager) (pathId : String)
    (path : AudioPath) (now : ℚ) (q p0 : Point) (rest : List Point)
    (hget : m.getPath pathId = some path) (hpts : path.points = p0 :: rest) :
    m.findNearestPointOnPath now q pathId =
      some ((nearLoop q now (calculatePathLength (p0 :: rest)) p0 rest
          ⟨p0, distanceToPoint q p0, 0, 0⟩).nearestPoint,
        pointsProgress now q p0 rest) := by
  unfold PathManager.findNearestPointOnPath pointsProgress
  rw [hget]
  dsimp only
  rw [hpts]

/-- C8: for every stored path whose points are collinear and strictly
increasing in one coordinate, the progress component returned by
`findNearestPointOnPath` is monotonically non-decreasing as the query point
moves in the increasing direction along that coordinate (the other query
coordinate held fixed). Both orientations: points on `y = mm*x + cc` strictly
increasing in x with the query moving in x, and points on `x = mm*y + cc`
strictly increasing in y with the query moving in y. -/
theorem progress_monotone_collinear (m : PathManager) (pathId : String)
    (path : AudioPath) (now : ℚ)
    (hget : m.getPath pathId = some path) :
    (∀ mm cc, OnLineX mm cc path.points → StrictIncX path.points →
      ∀ t1 t2 qy ts1 ts2 : ℚ, t1 ≤ t2 →
      ∀ pt1 pt2 : Point, ∀ g1 g2 : ℝ,
        m.findNearestPointOnPath now ⟨t1, qy, ts1, none⟩ pathId =
          some (pt1, g1) →
        m.findNearestPointOnPath now ⟨t2, qy, ts2, none⟩ pathId =
          some (pt2, g2) →
        g1 ≤ g2) ∧
    (∀ mm cc, OnLineY mm cc path.points → StrictIncY path.points →
      ∀ t1 t2 qx ts1 ts2 : ℚ, t1 ≤ t2 →
      ∀ pt1 pt2 : Point, ∀ g1 g2 : ℝ,
        m.findNearestPointOnPath now ⟨qx, t1, ts1, none⟩ pathId =
          some (pt1, g1) →
        m.findNearestPointOnPath now ⟨qx, t2, ts2, none⟩ pathId =
          some (pt2, g2) →
        g1 ≤ g2) := by
  constructor
  · intro mm cc hline hchain t1 t2 qy ts1 ts2 ht pt1 pt2 g1 g2 hf1 hf2
    cases hpts : path.points with
    | nil =>
        rw [findNearest_none_of_nil m pathId path now _ hget hpts] at hf1
        exact Option.noConfusion hf1
    | cons p0 rest =>
        rw [findNearest_progress m pathId path now _ p0 rest hget hpts]
          at hf1 hf2
        have hg1 : g1 = pointsProgress now ⟨t1, qy, ts1, none⟩ p0 rest :=
          (congrArg Prod.snd (Option.some.inj hf1)).symm
        have hg2 : g2 = pointsProgress now ⟨t2, qy, ts2, none⟩ p0 rest :=
          (congrArg Prod.snd (Option.some.inj hf2)).symm
        rw [hg1, hg2]
        rw [hpts] at hline hchain
        exact pointsProgress_mono_x mm cc now p0 rest
          (hline p0 (List.mem_cons_self _ _))
          (fun p hp => hline p (List.mem_cons_of_mem _ hp))
          hchain ⟨t1, qy, ts1, none⟩ ⟨t2, qy, ts2, none⟩ rfl ht
  · intro mm cc hline hchain t1 t2 qx ts1 ts2 ht pt1 pt2 g1 g2 hf1 hf2
    cases hpts : path.points with
    | nil =>
        rw [findNearest_none_of_nil m pathId path now _ hget hpts] at hf1
        exact Option.noConfusion hf1
    | cons p0 rest =>
        rw [findNearest_progress m pathId path now _ p0 rest hget hpts]
          at hf1 hf2
        have hg1 : g1 = pointsProgress now ⟨qx, t1, ts1, none⟩ p0 rest :=
          (congrArg Prod.snd (Option.some.inj hf1)).symm
        have hg2 : g2 = pointsProgress now ⟨qx, t2, ts2, none⟩ p0 rest :=
          (congrArg Prod.snd (Option.some.inj hf2)).symm
        rw [hg1, hg2]
        rw [hpts] at hline hchain
        rw [← pointsProgress_swap now ⟨qx, t1, ts1, none⟩ p0 rest,
            ← pointsProgress_swap now ⟨qx, t2, ts2, none⟩ p0 rest]
        apply pointsProgress_mono_x mm cc now (swapPoint p0)
          (rest.map swapPoint)
        · exact hline p0 (List.mem_cons_self _ _)
        · intro p hp
          obtain ⟨p', hp', rfl⟩ := List.mem_map.mp hp
          exact hline p' (List.mem_cons_of_mem _ hp')
        · have hmap : (swapPoint p0 :: rest.map swapPoint) =
              (p0 :: rest).map swapPoint := rfl
          rw [hmap]
          exact (List.chain'_map swapPoint).mpr hchain
        · rfl
        · exact ht

theorem progress_monotone_collinear_witness : (0 : ℝ) ≤ 1 :=
  (progress_monotone_collinear c7Store "path-1"
      ⟨"path-1", [⟨0, 0, 0, none⟩, ⟨10, 0, 100, none⟩, ⟨20, 0, 200, none⟩],
        none, getDefaultStyle, ⟨0, 0, 20, 0⟩, 0⟩ 999 c7_getPath).1
    0 0 (by intro p hp; fin_cases hp <;> norm_num)
    (by norm_num [StrictIncX, List.chain'_cons])
    0 20 0 0 0 (by norm_num)
    ⟨0, 0, 0, none⟩ ⟨20, 0, 999, none⟩ 0 1
    c7_eval_start c7_eval_end
